import Mathlib

set_option maxHeartbeats 1000000

/-- Entry of the simulated page table (struct `spage` in sim_paging.h).
`memset 0` initialisation corresponds to `default`. -/
structure spage where
  present : Bool
  frame : Int
  modified : Bool
  referenced : Bool
  timestamp : Nat
deriving DecidableEq, Inhabited

/-- Entry of the simulated frame table (struct `sframe` in sim_paging.h). -/
structure sframe where
  page : Int
  next : Int
deriving DecidableEq, Inhabited

/-- State of the whole simulated system (struct `ssystem` in sim_paging.h).
Unsigned 32-bit quantities (`clock`, timestamps, addresses) are modelled as
`Nat` reduced modulo 2^32 where the C code can wrap. -/
structure ssystem where
  pagsz : Nat
  numpags : Nat
  pgt : List spage
  lru : Int
  clock : Nat
  numframes : Nat
  frt : List sframe
  listfree : Int
  listoccupied : Int
  numrefsread : Nat
  numrefswrite : Nat
  numpagefaults : Nat
  numpgwriteback : Nat
  numillegalrefs : Nat
  detailed : Bool
deriving DecidableEq

/-- Array cell read, `l[i]`; out-of-range reads (undefined behaviour in C)
return the `default` element so that the embedding stays total. -/
def aget {α : Type} [Inhabited α] (l : List α) (i : Nat) : α :=
  (l.get? i).getD default

/-- `init_tables` (identical in sim_pag_fifo.c and sim_pag_lru.c): zero the
page table, reset the clock, build the circular free-frame list over all
frames with the tail pointer on the last one, and empty the occupied list. -/
def init_tables (S : ssystem) : ssystem :=
  { S with
    pgt := List.replicate S.numpags default,
    lru := -1,
    clock := 0,
    frt := (List.range S.numframes).map
      (fun i => { page := -1, next := if i + 1 = S.numframes then 0 else (i : Int) + 1 }),
    listfree := (S.numframes : Int) - 1,
    listoccupied := -1 }

/-- A fresh system as the driver would configure it (zeroed counters)
followed by `init_tables`. -/
def start (pagsz numpags numframes : Nat) : ssystem :=
  init_tables
    { pagsz := pagsz, numpags := numpags, pgt := [], lru := -1, clock := 0,
      numframes := numframes, frt := [], listfree := 0, listoccupied := 0,
      numrefsread := 0, numrefswrite := 0, numpagefaults := 0,
      numpgwriteback := 0, numillegalrefs := 0, detailed := false }

namespace FIFO

/-- `reference_page` of sim_pag_fifo.c: count reads; on a write, mark the
page modified and count it; other operation characters do nothing. -/
def reference_page (S : ssystem) (page : Nat) (op : Char) : ssystem :=
  if op = 'R' then { S with numrefsread := S.numrefsread + 1 }
  else if op = 'W' then
    { S with pgt := S.pgt.set page { aget S.pgt page with modified := true },
             numrefswrite := S.numrefswrite + 1 }
  else S

/-- `choose_page_to_be_replaced` of sim_pag_fifo.c: the victim is the page
loaded in the frame after the occupied-list tail (the oldest frame). -/
def choose_page_to_be_replaced (S : ssystem) : Int :=
  (aget S.frt (aget S.frt S.listoccupied.toNat).next.toNat).page

/-- `replace_page` of sim_pag_fifo.c. -/
def replace_page (S : ssystem) (victim : Int) (newpage : Nat) : ssystem :=
  let frame := (aget S.pgt victim.toNat).frame
  let S1 := { S with numpgwriteback :=
    if (aget S.pgt victim.toNat).modified then S.numpgwriteback + 1 else S.numpgwriteback }
  let ev := { aget S1.pgt victim.toNat with present := false, frame := -1, modified := false }
  let S2 := { S1 with pgt := S1.pgt.set victim.toNat ev }
  let en : spage := { present := true, frame := frame, modified := false, referenced := false, timestamp := 0 }
  let S3 := { S2 with pgt := S2.pgt.set newpage en }
  let ef := { aget S3.frt frame.toNat with page := (newpage : Int) }
  let S4 := { S3 with frt := S3.frt.set frame.toNat ef }
  { S4 with listoccupied := frame }

/-- `occupy_free_frame` of sim_pag_fifo.c. -/
def occupy_free_frame (S : ssystem) (frame : Nat) (page : Nat) : ssystem :=
  let en : spage := { present := true, frame := (frame : Int), modified := false, referenced := false, timestamp := 0 }
  let S1 := { S with pgt := S.pgt.set page en }
  let S2 := { S1 with frt := S1.frt.set frame { aget S1.frt frame with page := (page : Int) } }
  if S2.listoccupied = -1 then
    let S3 := { S2 with frt := S2.frt.set frame { aget S2.frt frame with next := (frame : Int) } }
    { S3 with listoccupied := (frame : Int) }
  else
    let e3 := { aget S2.frt frame with next := (aget S2.frt S2.listoccupied.toNat).next }
    let S3 := { S2 with frt := S2.frt.set frame e3 }
    let e4 := { aget S3.frt S3.listoccupied.toNat with next := (frame : Int) }
    let S4 := { S3 with frt := S3.frt.set S3.listoccupied.toNat e4 }
    { S4 with listoccupied := (frame : Int) }

/-- `handle_page_fault` of sim_pag_fifo.c. -/
def handle_page_fault (S : ssystem) (virtual_addr : Nat) : ssystem :=
  let S0 := { S with numpagefaults := S.numpagefaults + 1 }
  let page := virtual_addr / S0.pagsz
  if S0.listfree ≠ -1 then
    let last := S0.listfree
    let frame := (aget S0.frt last.toNat).next
    let eb := { aget S0.frt last.toNat with next := (aget S0.frt frame.toNat).next }
    let S1 := if frame = last then { S0 with listfree := -1 }
      else { S0 with frt := S0.frt.set last.toNat eb }
    occupy_free_frame S1 frame.toNat page
  else
    replace_page S0 (choose_page_to_be_replaced S0) page

/-- `sim_mmu` of sim_pag_fifo.c; returns the post-state and the physical
address (`~0U = 4294967295` on an illegal reference). -/
def sim_mmu (S : ssystem) (virtual_addr : Nat) (op : Char) : ssystem × Nat :=
  let page := virtual_addr / S.pagsz
  let offset := virtual_addr % S.pagsz
  if S.numpags ≤ page then
    ({ S with numillegalrefs := S.numillegalrefs + 1 }, 4294967295)
  else
    let S1 := if (aget S.pgt page).present then S else handle_page_fault S virtual_addr
    let frame := (aget S1.pgt page).frame
    let S2 := reference_page S1 page op
    (S2, (frame.toNat * S1.pagsz + offset) % 4294967296)

/-- A run of the FIFO simulator over a trace of (address, operation) events. -/
def run (S : ssystem) (t : List (Nat × Char)) : ssystem :=
  t.foldl (fun A e => (sim_mmu A e.1 e.2).1) S

end FIFO

namespace LRU

/-- `reference_page` of sim_pag_lru.c: count the read or (any non-read)
write, mark modified on a write, stamp the page with the current clock,
and increment the clock with 32-bit wrap-around. -/
def reference_page (S : ssystem) (page : Nat) (op : Char) : ssystem :=
  let S1 := if op = 'R' then { S with numrefsread := S.numrefsread + 1 }
    else { S with numrefswrite := S.numrefswrite + 1 }
  let S2 := if op = 'W' then
    { S1 with pgt := S1.pgt.set page { aget S1.pgt page with modified := true } } else S1
  let S3 := { S2 with pgt := S2.pgt.set page { aget S2.pgt page with timestamp := S2.clock } }
  { S3 with clock := (S3.clock + 1) % 4294967296 }

/-- The `WARNING: Clock overflow!` branch of `reference_page` in
sim_pag_lru.c: the warning is printed exactly when the incremented clock
has wrapped to zero. -/
def reference_page_overflow_warned (S : ssystem) (page : Nat) (op : Char) : Bool :=
  (reference_page S page op).clock == 0

/-- The scan loop of `choose_page_to_be_replaced` in sim_pag_lru.c:
fold over page indices `0..n-1` carrying `(victim, min_timestamp)`,
starting from `(-1, ~0U)`. -/
def chooseFold (pgt : List spage) (n : Nat) : Int × Nat :=
  (List.range n).foldl
    (fun acc i =>
      if (aget pgt i).present = true ∧ (aget pgt i).timestamp < acc.2
      then ((i : Int), (aget pgt i).timestamp) else acc)
    (-1, 4294967295)

/-- `choose_page_to_be_replaced` of sim_pag_lru.c. -/
def choose_page_to_be_replaced (S : ssystem) : Int :=
  (chooseFold S.pgt S.numpags).1

/-- `replace_page` of sim_pag_lru.c: note that only the victim's `present`
flag is cleared, and the new page's `timestamp` is not written. -/
def replace_page (S : ssystem) (victim : Int) (newpage : Nat) : ssystem :=
  let frame := (aget S.pgt victim.toNat).frame
  let S1 := if (aget S.pgt victim.toNat).modified
    then { S with numpgwriteback := S.numpgwriteback + 1 } else S
  let ev := { aget S1.pgt victim.toNat with present := false }
  let S2 := { S1 with pgt := S1.pgt.set victim.toNat ev }
  let en := { aget S2.pgt newpage with present := true, frame := frame, modified := false }
  let S3 := { S2 with pgt := S2.pgt.set newpage en }
  let ef := { aget S3.frt frame.toNat with page := (newpage : Int) }
  { S3 with frt := S3.frt.set frame.toNat ef }

/-- `occupy_free_frame` of sim_pag_lru.c. -/
def occupy_free_frame (S : ssystem) (frame : Nat) (page : Nat) : ssystem :=
  let en : spage := { present := true, frame := (frame : Int), modified := false, referenced := false, timestamp := 0 }
  let S1 := { S with pgt := S.pgt.set page en }
  { S1 with frt := S1.frt.set frame { aget S1.frt frame with page := (page : Int) } }

/-- `handle_page_fault` of sim_pag_lru.c. -/
def handle_page_fault (S : ssystem) (virtual_addr : Nat) : ssystem :=
  let S0 := { S with numpagefaults := S.numpagefaults + 1 }
  let page := virtual_addr / S0.pagsz
  if S0.listfree ≠ -1 then
    let last := S0.listfree
    let frame := (aget S0.frt last.toNat).next
    let eb := { aget S0.frt last.toNat with next := (aget S0.frt frame.toNat).next }
    let S1 := if frame = last then { S0 with listfree := -1 }
      else { S0 with frt := S0.frt.set last.toNat eb }
    occupy_free_frame S1 frame.toNat page
  else
    replace_page S0 (choose_page_to_be_replaced S0) page

/-- `sim_mmu` of sim_pag_lru.c. -/
def sim_mmu (S : ssystem) (virtual_addr : Nat) (op : Char) : ssystem × Nat :=
  let page := virtual_addr / S.pagsz
  let offset := virtual_addr % S.pagsz
  if S.numpags ≤ page then
    ({ S with numillegalrefs := S.numillegalrefs + 1 }, 4294967295)
  else
    let S1 := if (aget S.pgt page).present then S else handle_page_fault S virtual_addr
    let frame := (aget S1.pgt page).frame
    let S2 := reference_page S1 page op
    (S2, (frame.toNat * S1.pagsz + offset) % 4294967296)

/-- A run of the LRU simulator over a trace of (address, operation) events. -/
def run (S : ssystem) (t : List (Nat × Char)) : ssystem :=
  t.foldl (fun A e => (sim_mmu A e.1 e.2).1) S

end LRU

/-- Walk of a circular frame list: follow `next` from `cur`, stopping when
the walk returns to `stop` (or when the fuel runs out). -/
def chaseFree (S : ssystem) (stop : Int) : Nat → Int → List Int
  | 0, _ => []
  | fuel + 1, cur =>
    if cur = stop then [] else cur :: chaseFree S stop fuel (aget S.frt cur.toNat).next

/-- The frames on the circular free list: the tail pointer `listfree`
followed by the rest of the cycle (empty when `listfree = -1`). -/
def freeListFrames (S : ssystem) : List Int :=
  if S.listfree = -1 then []
  else S.listfree :: chaseFree S S.listfree S.numframes (aget S.frt S.listfree.toNat).next

/-- Number of frames currently holding a page (frame-table `page` field set). -/
def countOccupied (S : ssystem) : Nat :=
  ((List.range S.numframes).filter (fun f => decide ((aget S.frt f).page ≠ -1))).length

/-- The free/occupied frame partition stated by the spec: the free list and
the occupied frames are complementary and their sizes sum to `numframes`. -/
def framePartition (S : ssystem) : Prop :=
  (freeListFrames S).length + countOccupied S = S.numframes ∧
  ∀ f : Nat, f < S.numframes → (((f : Nat) : Int) ∈ freeListFrames S ↔ (aget S.frt f).page = -1)

/-- Structural invariant of the free-frame list: frames are handed out in
ascending order, so with `k` frames allocated the free list is the circular
chain `k, k+1, …, numframes-1` hanging off the tail `numframes-1`, and the
frame-table `page` field is `-1` exactly on the free frames. -/
def FreeInv (S : ssystem) (k : Nat) : Prop :=
  S.pgt.length = S.numpags ∧ S.frt.length = S.numframes ∧ 1 ≤ S.numframes ∧
  k ≤ S.numframes ∧
  (S.listfree = -1 ↔ k = S.numframes) ∧
  (k < S.numframes →
    S.listfree = (S.numframes : Int) - 1 ∧
    (aget S.frt (S.numframes - 1)).next = (k : Int) ∧
    ∀ i : Nat, k ≤ i → i + 1 < S.numframes → (aget S.frt i).next = (i : Int) + 1) ∧
  (∀ i : Nat, k ≤ i → i < S.numframes → (aget S.frt i).page = -1) ∧
  (∀ f : Nat, f < k → (aget S.frt f).page ≠ -1)

/-- Consistency of the page table with the frame table on the `k` allocated
frames: occupied frames hold present pages and vice versa. -/
def ConsInv (S : ssystem) (k : Nat) : Prop :=
  (∀ f : Nat, f < k → ∃ p : Nat, (aget S.frt f).page = (p : Int) ∧ p < S.numpags ∧
    (aget S.pgt p).present = true ∧ (aget S.pgt p).frame = (f : Int)) ∧
  (∀ p : Nat, p < S.numpags → (aget S.pgt p).present = true →
    ∃ f : Nat, (aget S.pgt p).frame = (f : Int) ∧ f < k ∧ (aget S.frt f).page = (p : Int))

/-- FIFO-only invariant: the occupied-list tail is an allocated frame and
the `next` links of allocated frames stay among allocated frames. -/
def FifoInv (S : ssystem) (k : Nat) : Prop :=
  (k = 0 → S.listoccupied = -1) ∧
  (0 < k → ∃ l : Nat, S.listoccupied = (l : Int) ∧ l < k) ∧
  (∀ f : Nat, f < k → ∃ m : Nat, (aget S.frt f).next = (m : Int) ∧ m < k)

/-- LRU-only invariant (valid while the clock has not wrapped): every
timestamp is at most the current clock. -/
def ClockInv (S : ssystem) : Prop :=
  ∀ q : Nat, (aget S.pgt q).timestamp ≤ S.clock

/-- Full invariant of the FIFO variant. -/
def InvF (S : ssystem) : Prop := ∃ k, FreeInv S k ∧ ConsInv S k ∧ FifoInv S k

/-- Invariant of the LRU variant while the clock has not wrapped. -/
def InvL (S : ssystem) : Prop := ∃ k, FreeInv S k ∧ ConsInv S k ∧ ClockInv S

/-- Weak invariant of the LRU variant that survives clock wrap-around:
only the free-list structure. -/
def JL (S : ssystem) : Prop := ∃ k, FreeInv S k

/-- A trace of 2^32 read accesses to page 0: enough references to wrap the
LRU clock once. -/
def bigTrace : List (Nat × Char) := List.replicate 4294967296 (0, 'R')

/-- Closed form of the LRU state after `m+1` read accesses to address 0 in
a 1-frame, 2-page, page-size-1 configuration. -/
def lruLoopState (m : Nat) : ssystem :=
  { pagsz := 1, numpags := 2,
    pgt := [{ present := true, frame := 0, modified := false, referenced := false,
              timestamp := m % 4294967296 },
            { present := false, frame := 0, modified := false, referenced := false,
              timestamp := 0 }],
    lru := -1, clock := (m + 1) % 4294967296,
    numframes := 1, frt := [{ page := 0, next := 0 }],
    listfree := -1, listoccupied := -1,
    numrefsread := m + 1, numrefswrite := 0, numpagefaults := 1,
    numpgwriteback := 0, numillegalrefs := 0, detailed := false }

/-- A one-frame LRU state whose only present page carries timestamp
`~0U = 4294967295`, the sentinel the victim scan starts from. -/
def tsMaxState : ssystem :=
  { pagsz := 1, numpags := 1,
    pgt := [{ present := true, frame := 0, modified := false, referenced := false, timestamp := 4294967295 }],
    lru := -1, clock := 0, numframes := 1, frt := [{ page := 0, next := 0 }],
    listfree := -1, listoccupied := -1, numrefsread := 0, numrefswrite := 0,
    numpagefaults := 0, numpgwriteback := 0, numillegalrefs := 0, detailed := false }

/-- A two-page, one-frame LRU state with clock 3, page 0 resident and
page 1 absent: a page fault on page 1 must evict page 0. -/
def clock3State : ssystem :=
  { pagsz := 1, numpags := 2,
    pgt := [{ present := true, frame := 0, modified := false, referenced := false, timestamp := 0 },
            { present := false, frame := 0, modified := false, referenced := false, timestamp := 0 }],
    lru := -1, clock := 3, numframes := 1, frt := [{ page := 0, next := 0 }],
    listfree := -1, listoccupied := -1, numrefsread := 0, numrefswrite := 0,
    numpagefaults := 0, numpgwriteback := 0, numillegalrefs := 0, detailed := false }

/-- A two-frame LRU state with both pages present, page 1 least recently
used (timestamp 3 against 5). -/
def twoPageState : ssystem :=
  { pagsz := 1, numpags := 2,
    pgt := [{ present := true, frame := 0, modified := false, referenced := false, timestamp := 5 },
            { present := true, frame := 1, modified := false, referenced := false, timestamp := 3 }],
    lru := -1, clock := 6, numframes := 2, frt := [{ page := 0, next := 1 }, { page := 1, next := 0 }],
    listfree := -1, listoccupied := -1, numrefsread := 0, numrefswrite := 0,
    numpagefaults := 0, numpgwriteback := 0, numillegalrefs := 0, detailed := false }

theorem aget_nil {α : Type} [Inhabited α] (i : Nat) : aget ([] : List α) i = default := by
  cases i <;> rfl

theorem aget_cons_zero {α : Type} [Inhabited α] (a : α) (l : List α) :
    aget (a :: l) 0 = a := rfl

theorem aget_cons_succ {α : Type} [Inhabited α] (a : α) (l : List α) (i : Nat) :
    aget (a :: l) (i + 1) = aget l i := rfl

theorem aget_set_self {α : Type} [Inhabited α] (l : List α) (i : Nat) (e : α)
    (h : i < l.length) : aget (l.set i e) i = e := by
  induction l generalizing i with
  | nil => simp at h
  | cons a t ih =>
    cases i with
    | zero => rfl
    | succ j => exact ih j (by simpa using h)

theorem aget_set_ne {α : Type} [Inhabited α] (l : List α) (i j : Nat) (e : α)
    (h : j ≠ i) : aget (l.set i e) j = aget l j := by
  induction l generalizing i j with
  | nil => rfl
  | cons a t ih =>
    cases i with
    | zero => cases j with
      | zero => exact absurd rfl h
      | succ m => rfl
    | succ n => cases j with
      | zero => rfl
      | succ m => exact ih n m (fun hh => h (by rw [hh]))

theorem set_oob {α : Type} (l : List α) (i : Nat) (e : α)
    (h : l.length ≤ i) : l.set i e = l := by
  induction l generalizing i with
  | nil => rfl
  | cons a t ih =>
    cases i with
    | zero => simp at h
    | succ j => simp only [List.set]; rw [ih j (by simpa using h)]

theorem aget_oob {α : Type} [Inhabited α] (l : List α) (i : Nat)
    (h : l.length ≤ i) : aget l i = default := by
  induction l generalizing i with
  | nil => exact aget_nil i
  | cons a t ih =>
    cases i with
    | zero => simp at h
    | succ j => exact (aget_cons_succ a t j).trans (ih j (by simpa using h))

theorem aget_replicate_default {α : Type} [Inhabited α] (n i : Nat) :
    aget (List.replicate n (default : α)) i = default := by
  induction n generalizing i with
  | zero => exact aget_nil i
  | succ m ih =>
    cases i with
    | zero => rfl
    | succ j => exact ih j

theorem aget_range_map {α : Type} [Inhabited α] (f : Nat → α) (n i : Nat)
    (h : i < n) : aget ((List.range n).map f) i = f i := by
  unfold aget
  rw [List.get?_map, List.get?_range h]
  rfl

theorem aget_set_fields (l : List spage) (p : Nat) (e : spage)
    (hpres : e.present = (aget l p).present) (hfr : e.frame = (aget l p).frame)
    (q : Nat) :
    (aget (l.set p e) q).present = (aget l q).present ∧
    (aget (l.set p e) q).frame = (aget l q).frame := by
  by_cases hq : q = p
  · subst hq
    by_cases hl : q < l.length
    · rw [aget_set_self l q e hl]; exact ⟨hpres, hfr⟩
    · rw [set_oob l q e (Nat.le_of_not_lt hl)]; exact ⟨rfl, rfl⟩
  · rw [aget_set_ne l p q e hq]; exact ⟨rfl, rfl⟩

theorem aget_set_present_frame_ts (l : List spage) (p : Nat) (e : spage)
    (hpres : e.present = (aget l p).present) (hfr : e.frame = (aget l p).frame)
    (hts : e.timestamp = (aget l p).timestamp) (q : Nat) :
    (aget (l.set p e) q).present = (aget l q).present ∧
    (aget (l.set p e) q).frame = (aget l q).frame ∧
    (aget (l.set p e) q).timestamp = (aget l q).timestamp := by
  by_cases hq : q = p
  · subst hq
    by_cases hl : q < l.length
    · rw [aget_set_self l q e hl]; exact ⟨hpres, hfr, hts⟩
    · rw [set_oob l q e (Nat.le_of_not_lt hl)]; exact ⟨rfl, rfl, rfl⟩
  · rw [aget_set_ne l p q e hq]; exact ⟨rfl, rfl, rfl⟩

/-- Claim C4 (confirmed): with the FIFO variant, two frames and read
accesses to pages 0, 1, 2 in order, all three accesses fault, page 0 (the
oldest) is evicted, and the frames end up holding exactly pages 2 and 1. -/
theorem fifo_scenario_r0r1r2 :
    (FIFO.run (start 1 3 2) [(0, 'R'), (1, 'R'), (2, 'R')]).numpagefaults = 3 ∧
    (aget (FIFO.run (start 1 3 2) [(0, 'R'), (1, 'R'), (2, 'R')]).pgt 0).present = false ∧
    (aget (FIFO.run (start 1 3 2) [(0, 'R'), (1, 'R'), (2, 'R')]).pgt 1).present = true ∧
    (aget (FIFO.run (start 1 3 2) [(0, 'R'), (1, 'R'), (2, 'R')]).pgt 2).present = true ∧
    (aget (FIFO.run (start 1 3 2) [(0, 'R'), (1, 'R'), (2, 'R')]).frt 0).page = 2 ∧
    (aget (FIFO.run (start 1 3 2) [(0, 'R'), (1, 'R'), (2, 'R')]).frt 1).page = 1 := by
  decide

/-- Claim C5 (confirmed): `replace_page` of either variant adds exactly one
write-back when the victim is modified and none otherwise; in the LRU
scenario R0 W1 W0 R2 with two frames, page 1 is evicted and exactly one
write-back is recorded. -/
theorem writeback_accounting :
    (∀ (S : ssystem) (v : Int) (p : Nat),
      (FIFO.replace_page S v p).numpgwriteback =
        (if (aget S.pgt v.toNat).modified then S.numpgwriteback + 1 else S.numpgwriteback)) ∧
    (∀ (S : ssystem) (v : Int) (p : Nat),
      (LRU.replace_page S v p).numpgwriteback =
        (if (aget S.pgt v.toNat).modified then S.numpgwriteback + 1 else S.numpgwriteback)) ∧
    (LRU.run (start 1 3 2) [(0, 'R'), (1, 'W'), (0, 'W'), (2, 'R')]).numpgwriteback = 1 ∧
    (aget (LRU.run (start 1 3 2) [(0, 'R'), (1, 'W'), (0, 'W'), (2, 'R')]).pgt 1).present = false := by
  refine ⟨?_, ?_, by decide, by decide⟩
  · intro S v p
    simp only [FIFO.replace_page]
  · intro S v p
    simp only [LRU.replace_page]
    split <;> rfl

/-- Claim C6 (confirmed): a translation whose page index is out of range
increments only the illegal-reference counter and returns the all-ones
invalid address, leaving every other component of the state unchanged. -/
theorem illegal_reference_contract (S : ssystem) (a : Nat) (op : Char)
    (h : S.numpags ≤ a / S.pagsz) :
    FIFO.sim_mmu S a op = ({ S with numillegalrefs := S.numillegalrefs + 1 }, 4294967295) ∧
    LRU.sim_mmu S a op = ({ S with numillegalrefs := S.numillegalrefs + 1 }, 4294967295) := by
  constructor
  · simp only [FIFO.sim_mmu, if_pos h]
  · simp only [LRU.sim_mmu, if_pos h]

/-- Witness for C6 at the spec's concrete instance: `page_count = 4`,
`page_size = 100`, virtual address 500. -/
theorem illegal_reference_contract_witness :
    (start 100 4 4).numpags ≤ 500 / (start 100 4 4).pagsz ∧
    (FIFO.sim_mmu (start 100 4 4) 500 'R' =
      ({ start 100 4 4 with numillegalrefs := (start 100 4 4).numillegalrefs + 1 }, 4294967295) ∧
     LRU.sim_mmu (start 100 4 4) 500 'R' =
      ({ start 100 4 4 with numillegalrefs := (start 100 4 4).numillegalrefs + 1 }, 4294967295)) :=
  ⟨by decide, illegal_reference_contract (start 100 4 4) 500 'R' (by decide)⟩

/-- Claim C9 (confirmed): in the LRU variant every recorded reference
stamps the page with the current clock and increments the clock modulo
2^32; the overflow warning fires exactly when the incremented clock wraps
to zero, and no statistics counter is affected by the wrap (the read/write
counters depend only on the operation). -/
theorem lru_reference_clock (S : ssystem) (p : Nat) (op : Char)
    (hp : p < S.pgt.length) :
    (aget (LRU.reference_page S p op).pgt p).timestamp = S.clock ∧
    (LRU.reference_page S p op).clock = (S.clock + 1) % 4294967296 ∧
    (LRU.reference_page_overflow_warned S p op = true ↔ (S.clock + 1) % 4294967296 = 0) ∧
    (LRU.reference_page S p op).numpagefaults = S.numpagefaults ∧
    (LRU.reference_page S p op).numpgwriteback = S.numpgwriteback ∧
    (LRU.reference_page S p op).numillegalrefs = S.numillegalrefs ∧
    (LRU.reference_page S p op).numrefsread = S.numrefsread + (if op = 'R' then 1 else 0) ∧
    (LRU.reference_page S p op).numrefswrite = S.numrefswrite + (if op = 'R' then 0 else 1) := by
  by_cases hR : op = 'R'
  · subst hR
    refine ⟨?_, ?_, ?_, ?_, ?_, ?_, ?_, ?_⟩ <;>
      simp [LRU.reference_page, LRU.reference_page_overflow_warned,
        aget_set_self, hp, List.length_set, beq_iff_eq]
  · by_cases hW : op = 'W'
    · subst hW
      refine ⟨?_, ?_, ?_, ?_, ?_, ?_, ?_, ?_⟩ <;>
        simp [LRU.reference_page, LRU.reference_page_overflow_warned,
          aget_set_self, hp, List.length_set, beq_iff_eq]
    · refine ⟨?_, ?_, ?_, ?_, ?_, ?_, ?_, ?_⟩ <;>
        simp [LRU.reference_page, LRU.reference_page_overflow_warned,
          aget_set_self, hp, List.length_set, beq_iff_eq, hR, hW]

/-- Witness for C9 at a concrete instance. -/
theorem lru_reference_clock_witness :
    0 < (start 1 1 1).pgt.length ∧
    ((aget (LRU.reference_page (start 1 1 1) 0 'R').pgt 0).timestamp = (start 1 1 1).clock ∧
     (LRU.reference_page (start 1 1 1) 0 'R').clock = ((start 1 1 1).clock + 1) % 4294967296 ∧
     (LRU.reference_page_overflow_warned (start 1 1 1) 0 'R' = true ↔
       ((start 1 1 1).clock + 1) % 4294967296 = 0) ∧
     (LRU.reference_page (start 1 1 1) 0 'R').numpagefaults = (start 1 1 1).numpagefaults ∧
     (LRU.reference_page (start 1 1 1) 0 'R').numpgwriteback = (start 1 1 1).numpgwriteback ∧
     (LRU.reference_page (start 1 1 1) 0 'R').numillegalrefs = (start 1 1 1).numillegalrefs ∧
     (LRU.reference_page (start 1 1 1) 0 'R').numrefsread =
       (start 1 1 1).numrefsread + (if ('R' : Char) = 'R' then 1 else 0) ∧
     (LRU.reference_page (start 1 1 1) 0 'R').numrefswrite =
       (start 1 1 1).numrefswrite + (if ('R' : Char) = 'R' then 0 else 1)) :=
  ⟨by decide, lru_reference_clock (start 1 1 1) 0 'R' (by decide)⟩

/-- Claim C10 (confirmed): `init_tables` rebuilds the page table, clock and
free/occupied list pointers but does not touch any statistics counter nor
the `detailed` flag, so counters carry over unless the caller zeroes them. -/
theorem init_tables_preserves_counters (S : ssystem) :
    (init_tables S).numrefsread = S.numrefsread ∧
    (init_tables S).numrefswrite = S.numrefswrite ∧
    (init_tables S).numpagefaults = S.numpagefaults ∧
    (init_tables S).numpgwriteback = S.numpgwriteback ∧
    (init_tables S).numillegalrefs = S.numillegalrefs ∧
    (init_tables S).detailed = S.detailed ∧
    (init_tables S).clock = 0 ∧
    (init_tables S).listoccupied = -1 ∧
    (init_tables S).listfree = (S.numframes : Int) - 1 ∧
    (init_tables S).pgt = List.replicate S.numpags default ∧
    ∀ i : Nat, i < S.numframes → (aget (init_tables S).frt i).page = -1 := by
  refine ⟨rfl, rfl, rfl, rfl, rfl, rfl, rfl, rfl, rfl, rfl, ?_⟩
  intro i hi
  have hfrt : (init_tables S).frt = (List.range S.numframes).map
      (fun j => ({ page := -1, next := if j + 1 = S.numframes then 0 else (j : Int) + 1 } : sframe)) := rfl
  rw [hfrt, aget_range_map _ _ _ hi]

theorem chooseFold_cases (pgt : List spage) : ∀ n : Nat,
    (LRU.chooseFold pgt n = (-1, 4294967295) ∧
      ∀ i : Nat, i < n → (aget pgt i).present = true →
        4294967295 ≤ (aget pgt i).timestamp) ∨
    (∃ v : Nat, v < n ∧ LRU.chooseFold pgt n = ((v : Int), (aget pgt v).timestamp) ∧
      (aget pgt v).present = true ∧ (aget pgt v).timestamp < 4294967295 ∧
      (∀ i : Nat, i < n → (aget pgt i).present = true →
        (aget pgt v).timestamp ≤ (aget pgt i).timestamp) ∧
      ∀ i : Nat, i < v → (aget pgt i).present = true →
        (aget pgt v).timestamp < (aget pgt i).timestamp) := by
  intro n
  induction n with
  | zero =>
    left
    exact ⟨rfl, fun i hi => absurd hi (Nat.not_lt_zero i)⟩
  | succ n ih =>
    have hstep : LRU.chooseFold pgt (n + 1) =
        (if (aget pgt n).present = true ∧ (aget pgt n).timestamp < (LRU.chooseFold pgt n).2
         then ((n : Int), (aget pgt n).timestamp) else LRU.chooseFold pgt n) := by
      simp [LRU.chooseFold, List.range_succ]
    rcases ih with ⟨heq, hall⟩ | ⟨v, hvn, heq, hpres, hlt, hmin, hstrict⟩
    · by_cases hc : (aget pgt n).present = true ∧ (aget pgt n).timestamp < 4294967295
      · right
        refine ⟨n, Nat.lt_succ_self n, ?_, hc.1, hc.2, ?_, ?_⟩
        · rw [hstep, heq]; simp [hc]
        · intro i hi hp2
          rcases Nat.lt_succ_iff_lt_or_eq.mp hi with h | h
          · exact le_of_lt (lt_of_lt_of_le hc.2 (hall i h hp2))
          · subst h; exact le_refl _
        · intro i hiv hp2
          exact lt_of_lt_of_le hc.2 (hall i hiv hp2)
      · left
        refine ⟨?_, ?_⟩
        · rw [hstep, heq]; simp only []
          rw [if_neg (by simpa using hc)]
        · intro i hi hp2
          rcases Nat.lt_succ_iff_lt_or_eq.mp hi with h | h
          · exact hall i h hp2
          · subst h
            by_contra hno
            exact hc ⟨hp2, Nat.lt_of_not_le hno⟩
    · by_cases hc : (aget pgt n).present = true ∧
        (aget pgt n).timestamp < (aget pgt v).timestamp
      · right
        refine ⟨n, Nat.lt_succ_self n, ?_, hc.1, lt_trans hc.2 hlt, ?_, ?_⟩
        · rw [hstep, heq]; simp [hc]
        · intro i hi hp2
          rcases Nat.lt_succ_iff_lt_or_eq.mp hi with h | h
          · exact le_of_lt (lt_of_lt_of_le hc.2 (hmin i h hp2))
          · subst h; exact le_refl _
        · intro i hiv hp2
          exact lt_of_lt_of_le hc.2 (hmin i hiv hp2)
      · right
        refine ⟨v, Nat.lt_succ_of_lt hvn, ?_, hpres, hlt, ?_, hstrict⟩
        · rw [hstep, heq]; simp only []
          rw [if_neg (by simpa using hc)]
        · intro i hi hp2
          rcases Nat.lt_succ_iff_lt_or_eq.mp hi with h | h
          · exact hmin i h hp2
          · subst h
            by_contra hno
            exact hc ⟨hp2, Nat.lt_of_not_le hno⟩

/-- Claim C3 (corrected, amended part): provided some present page has a
timestamp below the scan sentinel `~0U`, the LRU victim scan returns the
present page of globally minimum timestamp, ties broken by the lowest
page index. -/
theorem lru_victim_min_timestamp (S : ssystem) (w : Nat)
    (hw1 : w < S.numpags) (hw2 : (aget S.pgt w).present = true)
    (hw3 : (aget S.pgt w).timestamp < 4294967295) :
    ∃ v : Nat, LRU.choose_page_to_be_replaced S = (v : Int) ∧ v < S.numpags ∧
      (aget S.pgt v).present = true ∧
      (∀ i : Nat, i < S.numpags → (aget S.pgt i).present = true →
        (aget S.pgt v).timestamp ≤ (aget S.pgt i).timestamp) ∧
      ∀ i : Nat, i < v → (aget S.pgt i).present = true →
        (aget S.pgt v).timestamp < (aget S.pgt i).timestamp := by
  rcases chooseFold_cases S.pgt S.numpags with ⟨heq, hall⟩ | ⟨v, hvn, heq, hpres, _, hmin, hstrict⟩
  · exact absurd (hall w hw1 hw2) (by omega)
  · refine ⟨v, ?_, hvn, hpres, hmin, hstrict⟩
    show (LRU.chooseFold S.pgt S.numpags).1 = (v : Int)
    rw [heq]

/-- Witness for the amended C3 at a concrete two-page state. -/
theorem lru_victim_min_timestamp_witness :
    (1 < twoPageState.numpags ∧ (aget twoPageState.pgt 1).present = true ∧
      (aget twoPageState.pgt 1).timestamp < 4294967295) ∧
    (∃ v : Nat, LRU.choose_page_to_be_replaced twoPageState = (v : Int) ∧
      v < twoPageState.numpags ∧ (aget twoPageState.pgt v).present = true ∧
      (∀ i : Nat, i < twoPageState.numpags → (aget twoPageState.pgt i).present = true →
        (aget twoPageState.pgt v).timestamp ≤ (aget twoPageState.pgt i).timestamp) ∧
      ∀ i : Nat, i < v → (aget twoPageState.pgt i).present = true →
        (aget twoPageState.pgt v).timestamp < (aget twoPageState.pgt i).timestamp) :=
  ⟨⟨by decide, by decide, by decide⟩,
   lru_victim_min_timestamp twoPageState 1 (by decide) (by decide) (by decide)⟩

/-- Counterexample to C3 as stated: in `tsMaxState` a page is present (so
victim selection has a candidate, and page 0 is the present page of
minimum timestamp), yet the scan returns `-1`, which is no page at all. -/
theorem lru_victim_min_timestamp_cex :
    (aget tsMaxState.pgt 0).present = true ∧
    (∀ i : Nat, i < tsMaxState.numpags → (aget tsMaxState.pgt i).present = true →
      (aget tsMaxState.pgt 0).timestamp ≤ (aget tsMaxState.pgt i).timestamp) ∧
    LRU.choose_page_to_be_replaced tsMaxState = -1 ∧
    LRU.choose_page_to_be_replaced tsMaxState < 0 := by
  refine ⟨by decide, ?_, by decide, by decide⟩
  decide

theorem fifo_replace_eq (S : ssystem) (v : Nat) (p : Nat) :
    FIFO.replace_page S (v : Int) p =
    { S with
      numpgwriteback := if (aget S.pgt v).modified then S.numpgwriteback + 1 else S.numpgwriteback,
      pgt := ((S.pgt.set v { aget S.pgt v with present := false, frame := -1, modified := false }).set p { present := true, frame := (aget S.pgt v).frame, modified := false, referenced := false, timestamp := 0 }),
      frt := (S.frt.set (aget S.pgt v).frame.toNat { aget S.frt (aget S.pgt v).frame.toNat with page := (p : Int) }),
      listoccupied := (aget S.pgt v).frame } := rfl

theorem lru_replace_eq (S : ssystem) (v : Nat) (p : Nat) :
    LRU.replace_page S (v : Int) p =
    { S with
      numpgwriteback := if (aget S.pgt v).modified then S.numpgwriteback + 1 else S.numpgwriteback,
      pgt := ((S.pgt.set v { aget S.pgt v with present := false }).set p { aget (S.pgt.set v { aget S.pgt v with present := false }) p with present := true, frame := (aget S.pgt v).frame, modified := false }),
      frt := (S.frt.set (aget S.pgt v).frame.toNat { aget S.frt (aget S.pgt v).frame.toNat with page := (p : Int) }) } := by
  by_cases h : (aget S.pgt v).modified <;> simp [LRU.replace_page, h]

theorem fifo_handle_evict_eq (S : ssystem) (a : Nat) (hfree : S.listfree = -1) :
    FIFO.handle_page_fault S a =
    FIFO.replace_page { S with numpagefaults := S.numpagefaults + 1 }
      (FIFO.choose_page_to_be_replaced S) (a / S.pagsz) := by
  simp [FIFO.handle_page_fault, hfree]
  rfl

theorem lru_handle_evict_eq (S : ssystem) (a : Nat) (hfree : S.listfree = -1) :
    LRU.handle_page_fault S a =
    LRU.replace_page { S with numpagefaults := S.numpagefaults + 1 }
      (LRU.choose_page_to_be_replaced S) (a / S.pagsz) := by
  simp [LRU.handle_page_fault, hfree]
  rfl

theorem fifo_replace_spec (S : ssystem) (v p m : Nat)
    (hv : v < S.pgt.length) (hp : p < S.pgt.length) (hne : v ≠ p)
    (hm : (aget S.pgt v).frame = (m : Int)) (hmf : m < S.frt.length) :
    aget (FIFO.replace_page S (v : Int) p).pgt v = { aget S.pgt v with present := false, frame := -1, modified := false } ∧
    aget (FIFO.replace_page S (v : Int) p).pgt p = { present := true, frame := (m : Int), modified := false, referenced := false, timestamp := 0 } ∧
    (∀ q : Nat, q ≠ v → q ≠ p → aget (FIFO.replace_page S (v : Int) p).pgt q = aget S.pgt q) ∧
    aget (FIFO.replace_page S (v : Int) p).frt m = { page := (p : Int), next := (aget S.frt m).next } ∧
    (∀ f : Nat, f ≠ m → aget (FIFO.replace_page S (v : Int) p).frt f = aget S.frt f) ∧
    (FIFO.replace_page S (v : Int) p).listoccupied = (m : Int) ∧
    (FIFO.replace_page S (v : Int) p).listfree = S.listfree ∧
    (FIFO.replace_page S (v : Int) p).pgt.length = S.pgt.length ∧
    (FIFO.replace_page S (v : Int) p).frt.length = S.frt.length ∧
    (FIFO.replace_page S (v : Int) p).pagsz = S.pagsz ∧
    (FIFO.replace_page S (v : Int) p).numpags = S.numpags ∧
    (FIFO.replace_page S (v : Int) p).numframes = S.numframes ∧
    (FIFO.replace_page S (v : Int) p).clock = S.clock ∧
    (FIFO.replace_page S (v : Int) p).numpagefaults = S.numpagefaults ∧
    (FIFO.replace_page S (v : Int) p).numpgwriteback = (if (aget S.pgt v).modified then S.numpgwriteback + 1 else S.numpgwriteback) := by
  rw [fifo_replace_eq S v p, hm]
  refine ⟨?_, ?_, ?_, ?_, ?_, rfl, rfl, ?_, ?_, rfl, rfl, rfl, rfl, rfl, rfl⟩
  · show aget ((S.pgt.set v _).set p _) v = _
    rw [aget_set_ne _ p v _ hne, aget_set_self _ _ _ hv]
  · show aget ((S.pgt.set v _).set p _) p = _
    rw [aget_set_self _ _ _ (by simpa using hp)]
  · intro q hqv hqp
    show aget ((S.pgt.set v _).set p _) q = _
    rw [aget_set_ne _ p q _ hqp, aget_set_ne _ v q _ hqv]
  · show aget (S.frt.set ((m : Int)).toNat _) m = _
    simp only [Int.toNat_natCast]
    rw [aget_set_self _ _ _ hmf]
  · intro f hf
    show aget (S.frt.set ((m : Int)).toNat _) f = _
    simp only [Int.toNat_natCast]
    rw [aget_set_ne _ m f _ hf]
  · simp
  · simp

theorem lru_replace_spec (S : ssystem) (v p m : Nat)
    (hv : v < S.pgt.length) (hp : p < S.pgt.length) (hne : v ≠ p)
    (hm : (aget S.pgt v).frame = (m : Int)) (hmf : m < S.frt.length) :
    aget (LRU.replace_page S (v : Int) p).pgt v = { aget S.pgt v with present := false } ∧
    aget (LRU.replace_page S (v : Int) p).pgt p = { aget S.pgt p with present := true, frame := (m : Int), modified := false } ∧
    (∀ q : Nat, q ≠ v → q ≠ p → aget (LRU.replace_page S (v : Int) p).pgt q = aget S.pgt q) ∧
    aget (LRU.replace_page S (v : Int) p).frt m = { page := (p : Int), next := (aget S.frt m).next } ∧
    (∀ f : Nat, f ≠ m → aget (LRU.replace_page S (v : Int) p).frt f = aget S.frt f) ∧
    (LRU.replace_page S (v : Int) p).listoccupied = S.listoccupied ∧
    (LRU.replace_page S (v : Int) p).listfree = S.listfree ∧
    (LRU.replace_page S (v : Int) p).pgt.length = S.pgt.length ∧
    (LRU.replace_page S (v : Int) p).frt.length = S.frt.length ∧
    (LRU.replace_page S (v : Int) p).pagsz = S.pagsz ∧
    (LRU.replace_page S (v : Int) p).numpags = S.numpags ∧
    (LRU.replace_page S (v : Int) p).numframes = S.numframes ∧
    (LRU.replace_page S (v : Int) p).clock = S.clock ∧
    (LRU.replace_page S (v : Int) p).numpagefaults = S.numpagefaults ∧
    (LRU.replace_page S (v : Int) p).numpgwriteback = (if (aget S.pgt v).modified then S.numpgwriteback + 1 else S.numpgwriteback) := by
  rw [lru_replace_eq S v p, hm]
  refine ⟨?_, ?_, ?_, ?_, ?_, rfl, rfl, ?_, ?_, rfl, rfl, rfl, rfl, rfl, rfl⟩
  · show aget ((S.pgt.set v _).set p _) v = _
    rw [aget_set_ne _ p v _ hne, aget_set_self _ _ _ hv]
  · show aget ((S.pgt.set v _).set p _) p = _
    rw [aget_set_self _ _ _ (by simpa using hp)]
    rw [aget_set_ne _ v p _ (fun h => hne h.symm)]
  · intro q hqv hqp
    show aget ((S.pgt.set v _).set p _) q = _
    rw [aget_set_ne _ p q _ hqp, aget_set_ne _ v q _ hqv]
  · show aget (S.frt.set ((m : Int)).toNat _) m = _
    simp only [Int.toNat_natCast]
    rw [aget_set_self _ _ _ hmf]
  · intro f hf
    show aget (S.frt.set ((m : Int)).toNat _) f = _
    simp only [Int.toNat_natCast]
    rw [aget_set_ne _ m f _ hf]
  · simp
  · simp

theorem fifo_occupy_spec_pos (S : ssystem) (fr p lo : Nat)
    (hp : p < S.pgt.length) (hf : fr < S.frt.length)
    (hlo : S.listoccupied = (lo : Int)) (hlf : lo < S.frt.length) (hne : lo ≠ fr) :
    aget (FIFO.occupy_free_frame S fr p).pgt p = { present := true, frame := (fr : Int), modified := false, referenced := false, timestamp := 0 } ∧
    (∀ q : Nat, q ≠ p → aget (FIFO.occupy_free_frame S fr p).pgt q = aget S.pgt q) ∧
    aget (FIFO.occupy_free_frame S fr p).frt fr = { page := (p : Int), next := (aget S.frt lo).next } ∧
    aget (FIFO.occupy_free_frame S fr p).frt lo = { page := (aget S.frt lo).page, next := (fr : Int) } ∧
    (∀ f : Nat, f ≠ fr → f ≠ lo → aget (FIFO.occupy_free_frame S fr p).frt f = aget S.frt f) ∧
    (FIFO.occupy_free_frame S fr p).listoccupied = (fr : Int) ∧
    (FIFO.occupy_free_frame S fr p).listfree = S.listfree ∧
    (FIFO.occupy_free_frame S fr p).pgt.length = S.pgt.length ∧
    (FIFO.occupy_free_frame S fr p).frt.length = S.frt.length ∧
    (FIFO.occupy_free_frame S fr p).pagsz = S.pagsz ∧
    (FIFO.occupy_free_frame S fr p).numpags = S.numpags ∧
    (FIFO.occupy_free_frame S fr p).numframes = S.numframes ∧
    (FIFO.occupy_free_frame S fr p).clock = S.clock ∧
    (FIFO.occupy_free_frame S fr p).numpagefaults = S.numpagefaults ∧
    (FIFO.occupy_free_frame S fr p).numpgwriteback = S.numpgwriteback := by
  have hne' : S.listoccupied ≠ -1 := by rw [hlo]; omega
  have hnefl : fr ≠ lo := fun h => hne h.symm
  refine ⟨?_, ?_, ?_, ?_, ?_, ?_, ?_, ?_, ?_, ?_, ?_, ?_, ?_, ?_, ?_⟩
  · simp [FIFO.occupy_free_frame, hlo, hne', Int.toNat_natCast, aget_set_self, hp]
  · intro q hq
    simp [FIFO.occupy_free_frame, hlo, hne', Int.toNat_natCast, aget_set_ne, hq]
  · simp [FIFO.occupy_free_frame, hlo, hne', Int.toNat_natCast, aget_set_self, aget_set_ne, hf, hne, hnefl, hlf]
  · simp [FIFO.occupy_free_frame, hlo, hne', Int.toNat_natCast, aget_set_self, aget_set_ne, hf, hne, hnefl, hlf]
  · intro f hf1 hf2
    simp [FIFO.occupy_free_frame, hlo, hne', Int.toNat_natCast, aget_set_ne, hf1, hf2]
  · simp [FIFO.occupy_free_frame, hlo, hne']
  · simp [FIFO.occupy_free_frame, hlo, hne']
  · simp [FIFO.occupy_free_frame, hlo, hne']
  · simp [FIFO.occupy_free_frame, hlo, hne']
  · simp [FIFO.occupy_free_frame, hlo, hne']
  · simp [FIFO.occupy_free_frame, hlo, hne']
  · simp [FIFO.occupy_free_frame, hlo, hne']
  · simp [FIFO.occupy_free_frame, hlo, hne']
  · simp [FIFO.occupy_free_frame, hlo, hne']
  · simp [FIFO.occupy_free_frame, hlo, hne']

theorem fifo_occupy_spec_neg (S : ssystem) (fr p : Nat)
    (hp : p < S.pgt.length) (hf : fr < S.frt.length) (hlo : S.listoccupied = -1) :
    aget (FIFO.occupy_free_frame S fr p).pgt p = { present := true, frame := (fr : Int), modified := false, referenced := false, timestamp := 0 } ∧
    (∀ q : Nat, q ≠ p → aget (FIFO.occupy_free_frame S fr p).pgt q = aget S.pgt q) ∧
    aget (FIFO.occupy_free_frame S fr p).frt fr = { page := (p : Int), next := (fr : Int) } ∧
    (∀ f : Nat, f ≠ fr → aget (FIFO.occupy_free_frame S fr p).frt f = aget S.frt f) ∧
    (FIFO.occupy_free_frame S fr p).listoccupied = (fr : Int) ∧
    (FIFO.occupy_free_frame S fr p).listfree = S.listfree ∧
    (FIFO.occupy_free_frame S fr p).pgt.length = S.pgt.length ∧
    (FIFO.occupy_free_frame S fr p).frt.length = S.frt.length ∧
    (FIFO.occupy_free_frame S fr p).pagsz = S.pagsz ∧
    (FIFO.occupy_free_frame S fr p).numpags = S.numpags ∧
    (FIFO.occupy_free_frame S fr p).numframes = S.numframes ∧
    (FIFO.occupy_free_frame S fr p).clock = S.clock ∧
    (FIFO.occupy_free_frame S fr p).numpagefaults = S.numpagefaults ∧
    (FIFO.occupy_free_frame S fr p).numpgwriteback = S.numpgwriteback := by
  refine ⟨?_, ?_, ?_, ?_, ?_, ?_, ?_, ?_, ?_, ?_, ?_, ?_, ?_, ?_⟩
  · simp [FIFO.occupy_free_frame, hlo, aget_set_self, hp]
  · intro q hq
    simp [FIFO.occupy_free_frame, hlo, aget_set_ne, hq]
  · simp [FIFO.occupy_free_frame, hlo, aget_set_self, hf]
  · intro f hf1
    simp [FIFO.occupy_free_frame, hlo, aget_set_ne, hf1]
  · simp [FIFO.occupy_free_frame, hlo]
  · simp [FIFO.occupy_free_frame, hlo]
  · simp [FIFO.occupy_free_frame, hlo]
  · simp [FIFO.occupy_free_frame, hlo]
  · simp [FIFO.occupy_free_frame, hlo]
  · simp [FIFO.occupy_free_frame, hlo]
  · simp [FIFO.occupy_free_frame, hlo]
  · simp [FIFO.occupy_free_frame, hlo]
  · simp [FIFO.occupy_free_frame, hlo]
  · simp [FIFO.occupy_free_frame, hlo]

theorem lru_occupy_spec (S : ssystem) (fr p : Nat)
    (hp : p < S.pgt.length) (hf : fr < S.frt.length) :
    aget (LRU.occupy_free_frame S fr p).pgt p = { present := true, frame := (fr : Int), modified := false, referenced := false, timestamp := 0 } ∧
    (∀ q : Nat, q ≠ p → aget (LRU.occupy_free_frame S fr p).pgt q = aget S.pgt q) ∧
    aget (LRU.occupy_free_frame S fr p).frt fr = { page := (p : Int), next := (aget S.frt fr).next } ∧
    (∀ f : Nat, f ≠ fr → aget (LRU.occupy_free_frame S fr p).frt f = aget S.frt f) ∧
    (LRU.occupy_free_frame S fr p).listoccupied = S.listoccupied ∧
    (LRU.occupy_free_frame S fr p).listfree = S.listfree ∧
    (LRU.occupy_free_frame S fr p).pgt.length = S.pgt.length ∧
    (LRU.occupy_free_frame S fr p).frt.length = S.frt.length ∧
    (LRU.occupy_free_frame S fr p).pagsz = S.pagsz ∧
    (LRU.occupy_free_frame S fr p).numpags = S.numpags ∧
    (LRU.occupy_free_frame S fr p).numframes = S.numframes ∧
    (LRU.occupy_free_frame S fr p).clock = S.clock ∧
    (LRU.occupy_free_frame S fr p).numpagefaults = S.numpagefaults ∧
    (LRU.occupy_free_frame S fr p).numpgwriteback = S.numpgwriteback := by
  refine ⟨?_, ?_, ?_, ?_, rfl, rfl, ?_, ?_, rfl, rfl, rfl, rfl, rfl, rfl⟩
  · simp [LRU.occupy_free_frame, aget_set_self, hp]
  · intro q hq
    simp [LRU.occupy_free_frame, aget_set_ne, hq]
  · simp [LRU.occupy_free_frame, aget_set_self, hf]
  · intro f hf1
    simp [LRU.occupy_free_frame, aget_set_ne, hf1]
  · simp [LRU.occupy_free_frame]
  · simp [LRU.occupy_free_frame]

theorem fifo_handle_free_eq (S : ssystem) (a : Nat) (hfree : S.listfree ≠ -1) :
    FIFO.handle_page_fault S a =
      (if (aget S.frt S.listfree.toNat).next = S.listfree
       then FIFO.occupy_free_frame { S with numpagefaults := S.numpagefaults + 1, listfree := -1 } (aget S.frt S.listfree.toNat).next.toNat (a / S.pagsz)
       else FIFO.occupy_free_frame { S with numpagefaults := S.numpagefaults + 1, frt := (S.frt.set S.listfree.toNat { aget S.frt S.listfree.toNat with next := (aget S.frt (aget S.frt S.listfree.toNat).next.toNat).next }) } (aget S.frt S.listfree.toNat).next.toNat (a / S.pagsz)) := by
  by_cases h : (aget S.frt S.listfree.toNat).next = S.listfree <;>
    simp [FIFO.handle_page_fault, hfree, h]

theorem lru_handle_free_eq (S : ssystem) (a : Nat) (hfree : S.listfree ≠ -1) :
    LRU.handle_page_fault S a =
      (if (aget S.frt S.listfree.toNat).next = S.listfree
       then LRU.occupy_free_frame { S with numpagefaults := S.numpagefaults + 1, listfree := -1 } (aget S.frt S.listfree.toNat).next.toNat (a / S.pagsz)
       else LRU.occupy_free_frame { S with numpagefaults := S.numpagefaults + 1, frt := (S.frt.set S.listfree.toNat { aget S.frt S.listfree.toNat with next := (aget S.frt (aget S.frt S.listfree.toNat).next.toNat).next }) } (aget S.frt S.listfree.toNat).next.toNat (a / S.pagsz)) := by
  by_cases h : (aget S.frt S.listfree.toNat).next = S.listfree <;>
    simp [LRU.handle_page_fault, hfree, h]

theorem fifo_occupy_pgt (S : ssystem) (fr p : Nat) :
    (FIFO.occupy_free_frame S fr p).pgt = S.pgt.set p { present := true, frame := (fr : Int), modified := false, referenced := false, timestamp := 0 } ∧
    (FIFO.occupy_free_frame S fr p).pagsz = S.pagsz ∧
    (FIFO.occupy_free_frame S fr p).numpags = S.numpags ∧
    (FIFO.occupy_free_frame S fr p).numpagefaults = S.numpagefaults := by
  by_cases h : S.listoccupied = -1 <;> simp [FIFO.occupy_free_frame, h]

theorem lru_occupy_pgt (S : ssystem) (fr p : Nat) :
    (LRU.occupy_free_frame S fr p).pgt = S.pgt.set p { present := true, frame := (fr : Int), modified := false, referenced := false, timestamp := 0 } ∧
    (LRU.occupy_free_frame S fr p).pagsz = S.pagsz ∧
    (LRU.occupy_free_frame S fr p).numpags = S.numpags ∧
    (LRU.occupy_free_frame S fr p).numpagefaults = S.numpagefaults := by
  simp [LRU.occupy_free_frame]

theorem fifo_replace_eq_int (S : ssystem) (v : Int) (p : Nat) :
    FIFO.replace_page S v p =
    { S with
      numpgwriteback := if (aget S.pgt v.toNat).modified then S.numpgwriteback + 1 else S.numpgwriteback,
      pgt := ((S.pgt.set v.toNat { aget S.pgt v.toNat with present := false, frame := -1, modified := false }).set p { present := true, frame := (aget S.pgt v.toNat).frame, modified := false, referenced := false, timestamp := 0 }),
      frt := (S.frt.set (aget S.pgt v.toNat).frame.toNat { aget S.frt (aget S.pgt v.toNat).frame.toNat with page := (p : Int) }),
      listoccupied := (aget S.pgt v.toNat).frame } := rfl

theorem lru_replace_eq_int (S : ssystem) (v : Int) (p : Nat) :
    LRU.replace_page S v p =
    { S with
      numpgwriteback := if (aget S.pgt v.toNat).modified then S.numpgwriteback + 1 else S.numpgwriteback,
      pgt := ((S.pgt.set v.toNat { aget S.pgt v.toNat with present := false }).set p { aget (S.pgt.set v.toNat { aget S.pgt v.toNat with present := false }) p with present := true, frame := (aget S.pgt v.toNat).frame, modified := false }),
      frt := (S.frt.set (aget S.pgt v.toNat).frame.toNat { aget S.frt (aget S.pgt v.toNat).frame.toNat with page := (p : Int) }) } := by
  by_cases h : (aget S.pgt v.toNat).modified <;> simp [LRU.replace_page, h]

theorem fifo_handle_present (S : ssystem) (a : Nat)
    (hl : S.pgt.length = S.numpags) (hp : a / S.pagsz < S.numpags) :
    (aget (FIFO.handle_page_fault S a).pgt (a / S.pagsz)).present = true ∧
    (FIFO.handle_page_fault S a).pagsz = S.pagsz ∧
    (FIFO.handle_page_fault S a).numpags = S.numpags ∧
    (FIFO.handle_page_fault S a).pgt.length = S.pgt.length := by
  have hp' : a / S.pagsz < S.pgt.length := by omega
  by_cases hfree : S.listfree = -1
  · rw [fifo_handle_evict_eq S a hfree, fifo_replace_eq_int]
    refine ⟨?_, rfl, rfl, by simp⟩
    rw [aget_set_self _ _ _ (by simpa using hp')]
  · rw [fifo_handle_free_eq S a hfree]
    by_cases hc : (aget S.frt S.listfree.toNat).next = S.listfree <;>
      simp only [hc, if_pos, if_neg, ite_true, ite_false]
    · rcases fifo_occupy_pgt { S with numpagefaults := S.numpagefaults + 1, listfree := -1 } S.listfree.toNat (a / S.pagsz) with ⟨h1, h2, h3, _⟩
      refine ⟨?_, h2, h3, ?_⟩
      · rw [h1, aget_set_self _ _ _ (by simpa using hp')]
      · rw [h1]; simp
    · rcases fifo_occupy_pgt { S with numpagefaults := S.numpagefaults + 1, frt := (S.frt.set S.listfree.toNat { aget S.frt S.listfree.toNat with next := (aget S.frt (aget S.frt S.listfree.toNat).next.toNat).next }) } (aget S.frt S.listfree.toNat).next.toNat (a / S.pagsz) with ⟨h1, h2, h3, _⟩
      refine ⟨?_, h2, h3, ?_⟩
      · rw [h1, aget_set_self _ _ _ (by simpa using hp')]
      · rw [h1]; simp

theorem lru_handle_present (S : ssystem) (a : Nat)
    (hl : S.pgt.length = S.numpags) (hp : a / S.pagsz < S.numpags) :
    (aget (LRU.handle_page_fault S a).pgt (a / S.pagsz)).present = true ∧
    (LRU.handle_page_fault S a).pagsz = S.pagsz ∧
    (LRU.handle_page_fault S a).numpags = S.numpags ∧
    (LRU.handle_page_fault S a).pgt.length = S.pgt.length := by
  have hp' : a / S.pagsz < S.pgt.length := by omega
  by_cases hfree : S.listfree = -1
  · rw [lru_handle_evict_eq S a hfree, lru_replace_eq_int]
    refine ⟨?_, rfl, rfl, by simp⟩
    rw [aget_set_self _ _ _ (by simpa using hp')]
  · rw [lru_handle_free_eq S a hfree]
    by_cases hc : (aget S.frt S.listfree.toNat).next = S.listfree <;>
      simp only [hc, if_pos, if_neg, ite_true, ite_false]
    · rcases lru_occupy_pgt { S with numpagefaults := S.numpagefaults + 1, listfree := -1 } S.listfree.toNat (a / S.pagsz) with ⟨h1, h2, h3, _⟩
      refine ⟨?_, h2, h3, ?_⟩
      · rw [h1, aget_set_self _ _ _ (by simpa using hp')]
      · rw [h1]; simp
    · rcases lru_occupy_pgt { S with numpagefaults := S.numpagefaults + 1, frt := (S.frt.set S.listfree.toNat { aget S.frt S.listfree.toNat with next := (aget S.frt (aget S.frt S.listfree.toNat).next.toNat).next }) } (aget S.frt S.listfree.toNat).next.toNat (a / S.pagsz) with ⟨h1, h2, h3, _⟩
      refine ⟨?_, h2, h3, ?_⟩
      · rw [h1, aget_set_self _ _ _ (by simpa using hp')]
      · rw [h1]; simp

theorem fifo_reference_fields (S : ssystem) (p : Nat) (op : Char) :
    (FIFO.reference_page S p op).pagsz = S.pagsz ∧
    (FIFO.reference_page S p op).numpags = S.numpags ∧
    (FIFO.reference_page S p op).numframes = S.numframes ∧
    (FIFO.reference_page S p op).numpagefaults = S.numpagefaults ∧
    (FIFO.reference_page S p op).numpgwriteback = S.numpgwriteback ∧
    (FIFO.reference_page S p op).pgt.length = S.pgt.length ∧
    (FIFO.reference_page S p op).frt = S.frt ∧
    (FIFO.reference_page S p op).listfree = S.listfree ∧
    (FIFO.reference_page S p op).listoccupied = S.listoccupied ∧
    (FIFO.reference_page S p op).clock = S.clock ∧
    ∀ q : Nat, (aget (FIFO.reference_page S p op).pgt q).present = (aget S.pgt q).present ∧
      (aget (FIFO.reference_page S p op).pgt q).frame = (aget S.pgt q).frame := by
  by_cases hR : op = 'R'
  · subst hR
    exact ⟨rfl, rfl, rfl, rfl, rfl, rfl, rfl, rfl, rfl, rfl, fun q => ⟨rfl, rfl⟩⟩
  · by_cases hW : op = 'W'
    · subst hW
      refine ⟨?_, ?_, ?_, ?_, ?_, ?_, ?_, ?_, ?_, ?_, ?_⟩ <;>
        simp [FIFO.reference_page, hR, aget_set_fields S.pgt p { aget S.pgt p with modified := true } rfl rfl]
    · refine ⟨?_, ?_, ?_, ?_, ?_, ?_, ?_, ?_, ?_, ?_, ?_⟩ <;>
        simp [FIFO.reference_page, hR, hW]

theorem lru_reference_fields (S : ssystem) (p : Nat) (op : Char) :
    (LRU.reference_page S p op).pagsz = S.pagsz ∧
    (LRU.reference_page S p op).numpags = S.numpags ∧
    (LRU.reference_page S p op).numframes = S.numframes ∧
    (LRU.reference_page S p op).numpagefaults = S.numpagefaults ∧
    (LRU.reference_page S p op).numpgwriteback = S.numpgwriteback ∧
    (LRU.reference_page S p op).pgt.length = S.pgt.length ∧
    (LRU.reference_page S p op).frt = S.frt ∧
    (LRU.reference_page S p op).listfree = S.listfree ∧
    (LRU.reference_page S p op).listoccupied = S.listoccupied ∧
    ∀ q : Nat, (aget (LRU.reference_page S p op).pgt q).present = (aget S.pgt q).present ∧
      (aget (LRU.reference_page S p op).pgt q).frame = (aget S.pgt q).frame := by
  by_cases hR : op = 'R'
  · subst hR
    refine ⟨?_, ?_, ?_, ?_, ?_, ?_, ?_, ?_, ?_, ?_⟩ <;>
      simp [LRU.reference_page]
    intro q
    exact aget_set_fields S.pgt p { aget S.pgt p with timestamp := S.clock } rfl rfl q
  · by_cases hW : op = 'W'
    · subst hW
      refine ⟨?_, ?_, ?_, ?_, ?_, ?_, ?_, ?_, ?_, ?_⟩ <;>
        simp [LRU.reference_page]
      intro q
      rcases aget_set_fields S.pgt p { aget S.pgt p with modified := true } rfl rfl p with ⟨e1, e2⟩
      exact aget_set_fields S.pgt p { aget (S.pgt.set p { aget S.pgt p with modified := true }) p with timestamp := S.clock } e1 e2 q
    · refine ⟨?_, ?_, ?_, ?_, ?_, ?_, ?_, ?_, ?_, ?_⟩ <;>
      simp [LRU.reference_page, hR, hW]
      intro q
      exact aget_set_fields S.pgt p { aget S.pgt p with timestamp := S.clock } rfl rfl q

theorem fifo_mmu_present_eq (S : ssystem) (a : Nat) (op : Char)
    (hnp : ¬ S.numpags ≤ a / S.pagsz) (hpres : (aget S.pgt (a / S.pagsz)).present = true) :
    FIFO.sim_mmu S a op = (FIFO.reference_page S (a / S.pagsz) op,
      ((aget S.pgt (a / S.pagsz)).frame.toNat * S.pagsz + a % S.pagsz) % 4294967296) := by
  simp [FIFO.sim_mmu, hnp, hpres]

theorem fifo_mmu_absent_eq (S : ssystem) (a : Nat) (op : Char)
    (hnp : ¬ S.numpags ≤ a / S.pagsz) (hab : (aget S.pgt (a / S.pagsz)).present = false) :
    FIFO.sim_mmu S a op = (FIFO.reference_page (FIFO.handle_page_fault S a) (a / S.pagsz) op,
      ((aget (FIFO.handle_page_fault S a).pgt (a / S.pagsz)).frame.toNat * (FIFO.handle_page_fault S a).pagsz + a % S.pagsz) % 4294967296) := by
  simp [FIFO.sim_mmu, hnp, hab]

theorem lru_mmu_present_eq (S : ssystem) (a : Nat) (op : Char)
    (hnp : ¬ S.numpags ≤ a / S.pagsz) (hpres : (aget S.pgt (a / S.pagsz)).present = true) :
    LRU.sim_mmu S a op = (LRU.reference_page S (a / S.pagsz) op,
      ((aget S.pgt (a / S.pagsz)).frame.toNat * S.pagsz + a % S.pagsz) % 4294967296) := by
  simp [LRU.sim_mmu, hnp, hpres]

theorem lru_mmu_absent_eq (S : ssystem) (a : Nat) (op : Char)
    (hnp : ¬ S.numpags ≤ a / S.pagsz) (hab : (aget S.pgt (a / S.pagsz)).present = false) :
    LRU.sim_mmu S a op = (LRU.reference_page (LRU.handle_page_fault S a) (a / S.pagsz) op,
      ((aget (LRU.handle_page_fault S a).pgt (a / S.pagsz)).frame.toNat * (LRU.handle_page_fault S a).pagsz + a % S.pagsz) % 4294967296) := by
  simp [LRU.sim_mmu, hnp, hab]

theorem fifo_translate_idem (S : ssystem) (a : Nat) (op : Char)
    (hl : S.pgt.length = S.numpags) (hp : a / S.pagsz < S.numpags) :
    (FIFO.sim_mmu (FIFO.sim_mmu S a op).1 a op).2 = (FIFO.sim_mmu S a op).2 ∧
    (FIFO.sim_mmu (FIFO.sim_mmu S a op).1 a op).1.numpagefaults = (FIFO.sim_mmu S a op).1.numpagefaults := by
  have hnp : ¬ S.numpags ≤ a / S.pagsz := Nat.not_le_of_lt hp
  by_cases hpres : (aget S.pgt (a / S.pagsz)).present = true
  · have h1 := fifo_mmu_present_eq S a op hnp hpres
    obtain ⟨hpagsz, hnumpags, _, hfaults, _, _, _, _, _, _, hq⟩ :=
      fifo_reference_fields S (a / S.pagsz) op
    have hpage2 : a / (FIFO.reference_page S (a / S.pagsz) op).pagsz = a / S.pagsz := by
      rw [hpagsz]
    have hnp2 : ¬ (FIFO.reference_page S (a / S.pagsz) op).numpags ≤
        a / (FIFO.reference_page S (a / S.pagsz) op).pagsz := by
      rw [hpage2, hnumpags]; exact hnp
    have hpres2 : (aget (FIFO.reference_page S (a / S.pagsz) op).pgt
        (a / (FIFO.reference_page S (a / S.pagsz) op).pagsz)).present = true := by
      rw [hpage2, (hq _).1]; exact hpres
    have h2 := fifo_mmu_present_eq (FIFO.reference_page S (a / S.pagsz) op) a op hnp2 hpres2
    constructor
    · rw [h1]
      show (FIFO.sim_mmu (FIFO.reference_page S (a / S.pagsz) op) a op).2 = _
      rw [h2]
      show (_ * _ + _) % 4294967296 = (_ * _ + _) % 4294967296
      rw [hpage2, (hq _).2, hpagsz]
    · rw [h1]
      show (FIFO.sim_mmu (FIFO.reference_page S (a / S.pagsz) op) a op).1.numpagefaults = _
      rw [h2]
      show (FIFO.reference_page _ _ op).numpagefaults = _
      obtain ⟨_, _, _, hfaults2, _⟩ :=
        fifo_reference_fields (FIFO.reference_page S (a / S.pagsz) op)
          (a / (FIFO.reference_page S (a / S.pagsz) op).pagsz) op
      rw [hfaults2]
  · have hab : (aget S.pgt (a / S.pagsz)).present = false := by
      revert hpres; cases (aget S.pgt (a / S.pagsz)).present <;> simp
    have h1 := fifo_mmu_absent_eq S a op hnp hab
    obtain ⟨hHpres, hHpagsz, hHnumpags, hHlen⟩ := fifo_handle_present S a hl hp
    obtain ⟨hpagsz, hnumpags, _, hfaults, _, _, _, _, _, _, hq⟩ :=
      fifo_reference_fields (FIFO.handle_page_fault S a) (a / S.pagsz) op
    have hpage2 : a / (FIFO.reference_page (FIFO.handle_page_fault S a) (a / S.pagsz) op).pagsz
        = a / S.pagsz := by rw [hpagsz, hHpagsz]
    have hnp2 : ¬ (FIFO.reference_page (FIFO.handle_page_fault S a) (a / S.pagsz) op).numpags ≤
        a / (FIFO.reference_page (FIFO.handle_page_fault S a) (a / S.pagsz) op).pagsz := by
      rw [hpage2, hnumpags, hHnumpags]; exact hnp
    have hpres2 : (aget (FIFO.reference_page (FIFO.handle_page_fault S a) (a / S.pagsz) op).pgt
        (a / (FIFO.reference_page (FIFO.handle_page_fault S a) (a / S.pagsz) op).pagsz)).present = true := by
      rw [hpage2, (hq _).1]; exact hHpres
    have h2 := fifo_mmu_present_eq
      (FIFO.reference_page (FIFO.handle_page_fault S a) (a / S.pagsz) op) a op hnp2 hpres2
    constructor
    · rw [h1]
      show (FIFO.sim_mmu (FIFO.reference_page (FIFO.handle_page_fault S a) (a / S.pagsz) op) a op).2 = _
      rw [h2]
      show (_ * _ + _) % 4294967296 = (_ * _ + _) % 4294967296
      rw [hpage2, (hq _).2, hpagsz, hHpagsz]
    · rw [h1]
      show (FIFO.sim_mmu (FIFO.reference_page (FIFO.handle_page_fault S a) (a / S.pagsz) op) a op).1.numpagefaults = _
      rw [h2]
      show (FIFO.reference_page _ _ op).numpagefaults = _
      obtain ⟨_, _, _, hfaults2, _⟩ :=
        fifo_reference_fields (FIFO.reference_page (FIFO.handle_page_fault S a) (a / S.pagsz) op)
          (a / (FIFO.reference_page (FIFO.handle_page_fault S a) (a / S.pagsz) op).pagsz) op
      rw [hfaults2]

theorem lru_translate_idem (S : ssystem) (a : Nat) (op : Char)
    (hl : S.pgt.length = S.numpags) (hp : a / S.pagsz < S.numpags) :
    (LRU.sim_mmu (LRU.sim_mmu S a op).1 a op).2 = (LRU.sim_mmu S a op).2 ∧
    (LRU.sim_mmu (LRU.sim_mmu S a op).1 a op).1.numpagefaults = (LRU.sim_mmu S a op).1.numpagefaults := by
  have hnp : ¬ S.numpags ≤ a / S.pagsz := Nat.not_le_of_lt hp
  by_cases hpres : (aget S.pgt (a / S.pagsz)).present = true
  · have h1 := lru_mmu_present_eq S a op hnp hpres
    obtain ⟨hpagsz, hnumpags, _, hfaults, _, _, _, _, _, hq⟩ :=
      lru_reference_fields S (a / S.pagsz) op
    have hpage2 : a / (LRU.reference_page S (a / S.pagsz) op).pagsz = a / S.pagsz := by
      rw [hpagsz]
    have hnp2 : ¬ (LRU.reference_page S (a / S.pagsz) op).numpags ≤
        a / (LRU.reference_page S (a / S.pagsz) op).pagsz := by
      rw [hpage2, hnumpags]; exact hnp
    have hpres2 : (aget (LRU.reference_page S (a / S.pagsz) op).pgt
        (a / (LRU.reference_page S (a / S.pagsz) op).pagsz)).present = true := by
      rw [hpage2, (hq _).1]; exact hpres
    have h2 := lru_mmu_present_eq (LRU.reference_page S (a / S.pagsz) op) a op hnp2 hpres2
    constructor
    · rw [h1]
      show (LRU.sim_mmu (LRU.reference_page S (a / S.pagsz) op) a op).2 = _
      rw [h2]
      show (_ * _ + _) % 4294967296 = (_ * _ + _) % 4294967296
      rw [hpage2, (hq _).2, hpagsz]
    · rw [h1]
      show (LRU.sim_mmu (LRU.reference_page S (a / S.pagsz) op) a op).1.numpagefaults = _
      rw [h2]
      show (LRU.reference_page _ _ op).numpagefaults = _
      obtain ⟨_, _, _, hfaults2, _⟩ :=
        lru_reference_fields (LRU.reference_page S (a / S.pagsz) op)
          (a / (LRU.reference_page S (a / S.pagsz) op).pagsz) op
      rw [hfaults2]
  · have hab : (aget S.pgt (a / S.pagsz)).present = false := by
      revert hpres; cases (aget S.pgt (a / S.pagsz)).present <;> simp
    have h1 := lru_mmu_absent_eq S a op hnp hab
    obtain ⟨hHpres, hHpagsz, hHnumpags, hHlen⟩ := lru_handle_present S a hl hp
    obtain ⟨hpagsz, hnumpags, _, hfaults, _, _, _, _, _, hq⟩ :=
      lru_reference_fields (LRU.handle_page_fault S a) (a / S.pagsz) op
    have hpage2 : a / (LRU.reference_page (LRU.handle_page_fault S a) (a / S.pagsz) op).pagsz
        = a / S.pagsz := by rw [hpagsz, hHpagsz]
    have hnp2 : ¬ (LRU.reference_page (LRU.handle_page_fault S a) (a / S.pagsz) op).numpags ≤
        a / (LRU.reference_page (LRU.handle_page_fault S a) (a / S.pagsz) op).pagsz := by
      rw [hpage2, hnumpags, hHnumpags]; exact hnp
    have hpres2 : (aget (LRU.reference_page (LRU.handle_page_fault S a) (a / S.pagsz) op).pgt
        (a / (LRU.reference_page (LRU.handle_page_fault S a) (a / S.pagsz) op).pagsz)).present = true := by
      rw [hpage2, (hq _).1]; exact hHpres
    have h2 := lru_mmu_present_eq
      (LRU.reference_page (LRU.handle_page_fault S a) (a / S.pagsz) op) a op hnp2 hpres2
    constructor
    · rw [h1]
      show (LRU.sim_mmu (LRU.reference_page (LRU.handle_page_fault S a) (a / S.pagsz) op) a op).2 = _
      rw [h2]
      show (_ * _ + _) % 4294967296 = (_ * _ + _) % 4294967296
      rw [hpage2, (hq _).2, hpagsz, hHpagsz]
    · rw [h1]
      show (LRU.sim_mmu (LRU.reference_page (LRU.handle_page_fault S a) (a / S.pagsz) op) a op).1.numpagefaults = _
      rw [h2]
      show (LRU.reference_page _ _ op).numpagefaults = _
      obtain ⟨_, _, _, hfaults2, _⟩ :=
        lru_reference_fields (LRU.reference_page (LRU.handle_page_fault S a) (a / S.pagsz) op)
          (a / (LRU.reference_page (LRU.handle_page_fault S a) (a / S.pagsz) op).pagsz) op
      rw [hfaults2]

/-- Claim C8 (confirmed): translating the same legal virtual address twice
in a row returns the same physical address both times, and the second
translation adds no page fault, in both variants. -/
theorem translate_idempotent (S : ssystem) (a : Nat) (op : Char)
    (hl : S.pgt.length = S.numpags) (hp : a / S.pagsz < S.numpags) :
    ((FIFO.sim_mmu (FIFO.sim_mmu S a op).1 a op).2 = (FIFO.sim_mmu S a op).2 ∧
     (FIFO.sim_mmu (FIFO.sim_mmu S a op).1 a op).1.numpagefaults = (FIFO.sim_mmu S a op).1.numpagefaults) ∧
    ((LRU.sim_mmu (LRU.sim_mmu S a op).1 a op).2 = (LRU.sim_mmu S a op).2 ∧
     (LRU.sim_mmu (LRU.sim_mmu S a op).1 a op).1.numpagefaults = (LRU.sim_mmu S a op).1.numpagefaults) :=
  ⟨fifo_translate_idem S a op hl hp, lru_translate_idem S a op hl hp⟩

/-- Witness for C8 on a fresh two-frame system at address 0. -/
theorem translate_idempotent_witness :
    ((start 1 3 2).pgt.length = (start 1 3 2).numpags ∧ 0 / (start 1 3 2).pagsz < (start 1 3 2).numpags) ∧
    (((FIFO.sim_mmu (FIFO.sim_mmu (start 1 3 2) 0 'R').1 0 'R').2 = (FIFO.sim_mmu (start 1 3 2) 0 'R').2 ∧
      (FIFO.sim_mmu (FIFO.sim_mmu (start 1 3 2) 0 'R').1 0 'R').1.numpagefaults = (FIFO.sim_mmu (start 1 3 2) 0 'R').1.numpagefaults) ∧
     ((LRU.sim_mmu (LRU.sim_mmu (start 1 3 2) 0 'R').1 0 'R').2 = (LRU.sim_mmu (start 1 3 2) 0 'R').2 ∧
      (LRU.sim_mmu (LRU.sim_mmu (start 1 3 2) 0 'R').1 0 'R').1.numpagefaults = (LRU.sim_mmu (start 1 3 2) 0 'R').1.numpagefaults)) :=
  ⟨⟨by decide, by decide⟩, translate_idempotent (start 1 3 2) 0 'R' (by decide) (by decide)⟩

theorem lru_reference_ts (S : ssystem) (p : Nat) (op : Char)
    (hp : p < S.pgt.length) :
    (aget (LRU.reference_page S p op).pgt p).timestamp = S.clock := by
  by_cases hR : op = 'R'
  · subst hR
    simp [LRU.reference_page, aget_set_self, hp, List.length_set]
  · by_cases hW : op = 'W'
    · subst hW
      simp [LRU.reference_page, aget_set_self, hp, List.length_set]
    · simp [LRU.reference_page, aget_set_self, hp, List.length_set, hR, hW]

/-- Claim C1 (corrected, amended part): on a page fault with no free frame
both variants clear the victim's present flag, add a write-back exactly
when the victim was modified, install the new page present and unmodified
in the victim's frame, and update the FIFO occupied-list tail (nothing for
LRU); the LRU fault handler leaves the new page's timestamp untouched, and
it is the reference recorder, invoked right after fault handling, that
stamps it with the current clock. -/
theorem eviction_contract_amended (S : ssystem) (a : Nat) (op : Char)
    (v m w u : Nat)
    (hfree : S.listfree = -1)
    (hl : S.pgt.length = S.numpags) (hfl : S.frt.length = S.numframes)
    (hp : a / S.pagsz < S.numpags)
    (hvF : FIFO.choose_page_to_be_replaced S = (v : Int)) (hvFp : v < S.numpags)
    (hvFne : v ≠ a / S.pagsz)
    (hmF : (aget S.pgt v).frame = (m : Int)) (hmFf : m < S.numframes)
    (hvL : LRU.choose_page_to_be_replaced S = (w : Int)) (hvLp : w < S.numpags)
    (hvLne : w ≠ a / S.pagsz)
    (hmL : (aget S.pgt w).frame = (u : Int)) (hmLf : u < S.numframes) :
    ((aget (FIFO.handle_page_fault S a).pgt v).present = false ∧
     (FIFO.handle_page_fault S a).numpgwriteback =
       (if (aget S.pgt v).modified then S.numpgwriteback + 1 else S.numpgwriteback) ∧
     (aget (FIFO.handle_page_fault S a).pgt (a / S.pagsz)).present = true ∧
     (aget (FIFO.handle_page_fault S a).pgt (a / S.pagsz)).modified = false ∧
     (aget (FIFO.handle_page_fault S a).pgt (a / S.pagsz)).frame = (m : Int) ∧
     (aget (FIFO.handle_page_fault S a).frt m).page = ((a / S.pagsz : Nat) : Int) ∧
     (FIFO.handle_page_fault S a).listoccupied = (m : Int)) ∧
    ((aget (LRU.handle_page_fault S a).pgt w).present = false ∧
     (LRU.handle_page_fault S a).numpgwriteback =
       (if (aget S.pgt w).modified then S.numpgwriteback + 1 else S.numpgwriteback) ∧
     (aget (LRU.handle_page_fault S a).pgt (a / S.pagsz)).present = true ∧
     (aget (LRU.handle_page_fault S a).pgt (a / S.pagsz)).modified = false ∧
     (aget (LRU.handle_page_fault S a).pgt (a / S.pagsz)).frame = (u : Int) ∧
     (aget (LRU.handle_page_fault S a).frt u).page = ((a / S.pagsz : Nat) : Int) ∧
     (LRU.handle_page_fault S a).listoccupied = S.listoccupied ∧
     (aget (LRU.handle_page_fault S a).pgt (a / S.pagsz)).timestamp = (aget S.pgt (a / S.pagsz)).timestamp ∧
     (LRU.handle_page_fault S a).clock = S.clock ∧
     (aget (LRU.reference_page (LRU.handle_page_fault S a) (a / S.pagsz) op).pgt (a / S.pagsz)).timestamp
       = (LRU.handle_page_fault S a).clock) := by
  constructor
  · have hrw : FIFO.handle_page_fault S a =
        FIFO.replace_page { S with numpagefaults := S.numpagefaults + 1 } (v : Int) (a / S.pagsz) := by
      rw [fifo_handle_evict_eq S a hfree, hvF]
    have hv' : v < S.pgt.length := by omega
    have hp' : a / S.pagsz < S.pgt.length := by omega
    have hmf' : m < S.frt.length := by omega
    obtain ⟨s1, s2, _, s4, _, s6, _, _, _, _, _, _, _, _, s15⟩ :=
      fifo_replace_spec { S with numpagefaults := S.numpagefaults + 1 } v (a / S.pagsz) m
        hv' hp' (fun h => hvFne h) hmF hmf'
    refine ⟨?_, ?_, ?_, ?_, ?_, ?_, ?_⟩
    · rw [hrw, s1]
    · rw [hrw]; exact s15
    · rw [hrw, s2]
    · rw [hrw, s2]
    · rw [hrw, s2]
    · rw [hrw, s4]
    · rw [hrw]; exact s6
  · have hrw : LRU.handle_page_fault S a =
        LRU.replace_page { S with numpagefaults := S.numpagefaults + 1 } (w : Int) (a / S.pagsz) := by
      rw [lru_handle_evict_eq S a hfree, hvL]
    have hw' : w < S.pgt.length := by omega
    have hp' : a / S.pagsz < S.pgt.length := by omega
    have hmf' : u < S.frt.length := by omega
    obtain ⟨s1, s2, _, s4, _, s6, s7, s8, _, _, _, _, s13, _, s15⟩ :=
      lru_replace_spec { S with numpagefaults := S.numpagefaults + 1 } w (a / S.pagsz) u
        hw' hp' (fun h => hvLne h) hmL hmf'
    have hplen : a / S.pagsz < (LRU.handle_page_fault S a).pgt.length := by
      rw [hrw, s8]; exact hp'
    refine ⟨?_, ?_, ?_, ?_, ?_, ?_, ?_, ?_, ?_, ?_⟩
    · rw [hrw, s1]
    · rw [hrw]; exact s15
    · rw [hrw, s2]
    · rw [hrw, s2]
    · rw [hrw, s2]
    · rw [hrw, s4]
    · rw [hrw]; exact s6
    · rw [hrw, s2]
    · rw [hrw]; exact s13
    · exact lru_reference_ts (LRU.handle_page_fault S a) (a / S.pagsz) op hplen

/-- Counterexample to C1 as stated: in `clock3State` (clock 3, one frame,
victim page 0) the fault on page 1 is handled by eviction, yet the new
page's timestamp after `handle_page_fault` is 0, not the current clock 3:
the LRU fault handler does not stamp the installed page. -/
theorem eviction_contract_timestamp_cex :
    clock3State.listfree = -1 ∧
    (aget clock3State.pgt 1).present = false ∧
    1 < clock3State.numpags ∧
    LRU.choose_page_to_be_replaced clock3State = 0 ∧
    (aget (LRU.handle_page_fault clock3State 1).pgt 1).present = true ∧
    (LRU.handle_page_fault clock3State 1).clock = clock3State.clock ∧
    (aget (LRU.handle_page_fault clock3State 1).pgt 1).timestamp ≠ clock3State.clock := by
  decide

/-- Witness for the amended C1 at `clock3State`, address 1, operation R:
both variants evict page 0 from frame 0 and install page 1 there. -/
theorem eviction_contract_amended_witness :
    (clock3State.listfree = -1 ∧
     clock3State.pgt.length = clock3State.numpags ∧
     clock3State.frt.length = clock3State.numframes ∧
     1 / clock3State.pagsz < clock3State.numpags ∧
     FIFO.choose_page_to_be_replaced clock3State = ((0 : Nat) : Int) ∧
     LRU.choose_page_to_be_replaced clock3State = ((0 : Nat) : Int)) ∧
    (((aget (FIFO.handle_page_fault clock3State 1).pgt 0).present = false ∧
      (FIFO.handle_page_fault clock3State 1).numpgwriteback =
        (if (aget clock3State.pgt 0).modified then clock3State.numpgwriteback + 1 else clock3State.numpgwriteback) ∧
      (aget (FIFO.handle_page_fault clock3State 1).pgt (1 / clock3State.pagsz)).present = true ∧
      (aget (FIFO.handle_page_fault clock3State 1).pgt (1 / clock3State.pagsz)).modified = false ∧
      (aget (FIFO.handle_page_fault clock3State 1).pgt (1 / clock3State.pagsz)).frame = ((0 : Nat) : Int) ∧
      (aget (FIFO.handle_page_fault clock3State 1).frt 0).page = ((1 / clock3State.pagsz : Nat) : Int) ∧
      (FIFO.handle_page_fault clock3State 1).listoccupied = ((0 : Nat) : Int)) ∧
     ((aget (LRU.handle_page_fault clock3State 1).pgt 0).present = false ∧
      (LRU.handle_page_fault clock3State 1).numpgwriteback =
        (if (aget clock3State.pgt 0).modified then clock3State.numpgwriteback + 1 else clock3State.numpgwriteback) ∧
      (aget (LRU.handle_page_fault clock3State 1).pgt (1 / clock3State.pagsz)).present = true ∧
      (aget (LRU.handle_page_fault clock3State 1).pgt (1 / clock3State.pagsz)).modified = false ∧
      (aget (LRU.handle_page_fault clock3State 1).pgt (1 / clock3State.pagsz)).frame = ((0 : Nat) : Int) ∧
      (aget (LRU.handle_page_fault clock3State 1).frt 0).page = ((1 / clock3State.pagsz : Nat) : Int) ∧
      (LRU.handle_page_fault clock3State 1).listoccupied = clock3State.listoccupied ∧
      (aget (LRU.handle_page_fault clock3State 1).pgt (1 / clock3State.pagsz)).timestamp =
        (aget clock3State.pgt (1 / clock3State.pagsz)).timestamp ∧
      (LRU.handle_page_fault clock3State 1).clock = clock3State.clock ∧
      (aget (LRU.reference_page (LRU.handle_page_fault clock3State 1) (1 / clock3State.pagsz) 'R').pgt
        (1 / clock3State.pagsz)).timestamp = (LRU.handle_page_fault clock3State 1).clock)) :=
  ⟨⟨by decide, by decide, by decide, by decide, by decide, by decide⟩,
   eviction_contract_amended clock3State 1 'R' 0 0 0 0 (by decide) (by decide) (by decide)
     (by decide) (by decide) (by decide) (by decide) (by decide) (by decide)
     (by decide) (by decide) (by decide) (by decide) (by decide)⟩

theorem freeInv_transfer (S T : ssystem) (k : Nat)
    (h1 : T.pgt.length = S.pgt.length) (h2 : ∀ f : Nat, aget T.frt f = aget S.frt f)
    (h2l : T.frt.length = S.frt.length)
    (h3 : T.numpags = S.numpags) (h4 : T.numframes = S.numframes)
    (h5 : T.listfree = S.listfree) :
    FreeInv S k → FreeInv T k := by
  intro ⟨a1, a2, a3, a4, a5, a6, a7, a8⟩
  refine ⟨by omega, by omega, by omega, by omega, by rw [h5, h4]; exact a5, ?_, ?_, ?_⟩
  · intro hk
    rw [h4] at hk
    obtain ⟨b1, b2, b3⟩ := a6 hk
    exact ⟨by rw [h5, h4, b1], by rw [h4, h2]; exact b2, fun i hi1 hi2 => by rw [h2]; exact b3 i hi1 (by omega)⟩
  · intro i hi1 hi2
    rw [h2]
    exact a7 i hi1 (by omega)
  · intro f hf
    rw [h2]
    exact a8 f hf

theorem consInv_transfer (S T : ssystem) (k : Nat)
    (h3 : T.numpags = S.numpags)
    (hpq : ∀ q : Nat, (aget T.pgt q).present = (aget S.pgt q).present ∧
      (aget T.pgt q).frame = (aget S.pgt q).frame)
    (hfq : ∀ f : Nat, aget T.frt f = aget S.frt f) :
    ConsInv S k → ConsInv T k := by
  intro ⟨a1, a2⟩
  constructor
  · intro f hf
    obtain ⟨p, b1, b2, b3, b4⟩ := a1 f hf
    exact ⟨p, by rw [hfq]; exact b1, by omega, by rw [(hpq p).1]; exact b3, by rw [(hpq p).2]; exact b4⟩
  · intro p hp hpres
    rw [h3] at hp
    rw [(hpq p).1] at hpres
    obtain ⟨f, b1, b2, b3⟩ := a2 p hp hpres
    exact ⟨f, by rw [(hpq p).2]; exact b1, b2, by rw [hfq]; exact b3⟩

theorem fifoInv_transfer (S T : ssystem) (k : Nat)
    (hfq : ∀ f : Nat, aget T.frt f = aget S.frt f)
    (hlo : T.listoccupied = S.listoccupied) :
    FifoInv S k → FifoInv T k := by
  intro ⟨a1, a2, a3⟩
  refine ⟨by rw [hlo]; exact a1, ?_, ?_⟩
  · intro hk
    obtain ⟨l, b1, b2⟩ := a2 hk
    exact ⟨l, by rw [hlo]; exact b1, b2⟩
  · intro f hf
    obtain ⟨mm, b1, b2⟩ := a3 f hf
    exact ⟨mm, by rw [hfq]; exact b1, b2⟩

theorem clockInv_transfer (S T : ssystem)
    (hts : ∀ q : Nat, (aget T.pgt q).timestamp = (aget S.pgt q).timestamp)
    (hc : T.clock = S.clock) :
    ClockInv S → ClockInv T := by
  intro h q
  rw [hts, hc]
  exact h q

theorem freeInv_start (ps np nf : Nat) (hn : 1 ≤ nf) : FreeInv (start ps np nf) 0 := by
  have hfrt : (start ps np nf).frt = (List.range nf).map
      (fun j => ({ page := -1, next := if j + 1 = nf then 0 else (j : Int) + 1 } : sframe)) := rfl
  have hnf : (start ps np nf).numframes = nf := rfl
  have hnp : (start ps np nf).numpags = np := rfl
  have hlf : (start ps np nf).listfree = (nf : Int) - 1 := rfl
  have hpl : (start ps np nf).pgt.length = np := by
    show (List.replicate np (default : spage)).length = np
    simp
  have hfl2 : (start ps np nf).frt.length = nf := by rw [hfrt]; simp
  refine ⟨by rw [hpl, hnp], by rw [hfl2, hnf], by rw [hnf]; exact hn, by omega, ?_, ?_, ?_, ?_⟩
  · rw [hlf, hnf]
    constructor
    · intro h; omega
    · intro h; omega
  · intro hk
    refine ⟨by rw [hlf, hnf], ?_, ?_⟩
    · rw [hnf, hfrt, aget_range_map _ _ _ (show nf - 1 < nf by omega)]
      show (if (nf - 1) + 1 = nf then (0 : Int) else ((nf - 1 : Nat) : Int) + 1) = ((0 : Nat) : Int)
      rw [if_pos (by omega)]
      simp
    · intro i _ hi2
      rw [hnf] at hi2
      rw [hfrt, aget_range_map _ _ _ (show i < nf by omega)]
      show (if i + 1 = nf then (0 : Int) else (i : Int) + 1) = (i : Int) + 1
      rw [if_neg (by omega)]
  · intro i _ hi2
    rw [hnf] at hi2
    rw [hfrt, aget_range_map _ _ _ hi2]
  · intro f hf
    omega

theorem consInv_start (ps np nf : Nat) : ConsInv (start ps np nf) 0 := by
  constructor
  · intro f hf
    omega
  · intro p hp hpres
    exfalso
    have hrepl : (start ps np nf).pgt = List.replicate np default := rfl
    rw [hrepl, aget_replicate_default] at hpres
    exact absurd hpres (by decide)

theorem fifoInv_start (ps np nf : Nat) : FifoInv (start ps np nf) 0 := by
  refine ⟨fun _ => rfl, ?_, ?_⟩
  · intro h; omega
  · intro f hf; omega

theorem clockInv_start (ps np nf : Nat) : ClockInv (start ps np nf) := by
  intro q
  by_cases hq : q < np
  · have hrepl : (start ps np nf).pgt = List.replicate np default := rfl
    rw [hrepl, aget_replicate_default]
    exact Nat.zero_le _
  · have hrepl : (start ps np nf).pgt = List.replicate np default := rfl
    rw [hrepl, aget_replicate_default]
    exact Nat.zero_le _

theorem fifo_handle_free_spec (S : ssystem) (a : Nat) (k : Nat)
    (hF : FreeInv S k) (hO : FifoInv S k) (hk : k < S.numframes)
    (hp : a / S.pagsz < S.numpags) :
    aget (FIFO.handle_page_fault S a).pgt (a / S.pagsz) = { present := true, frame := (k : Int), modified := false, referenced := false, timestamp := 0 } ∧
    (∀ q : Nat, q ≠ a / S.pagsz → aget (FIFO.handle_page_fault S a).pgt q = aget S.pgt q) ∧
    (aget (FIFO.handle_page_fault S a).frt k).page = ((a / S.pagsz : Nat) : Int) ∧
    (∃ mm : Nat, mm < k + 1 ∧ (aget (FIFO.handle_page_fault S a).frt k).next = (mm : Int)) ∧
    (∀ f : Nat, f < k → (aget (FIFO.handle_page_fault S a).frt f).page = (aget S.frt f).page) ∧
    (∀ f : Nat, f < k → ∃ mm : Nat, mm < k + 1 ∧ (aget (FIFO.handle_page_fault S a).frt f).next = (mm : Int)) ∧
    (∀ f : Nat, k < f → f < S.numframes - 1 → aget (FIFO.handle_page_fault S a).frt f = aget S.frt f) ∧
    (k + 1 < S.numframes → (aget (FIFO.handle_page_fault S a).frt (S.numframes - 1)).page = -1 ∧
      (aget (FIFO.handle_page_fault S a).frt (S.numframes - 1)).next = ((k + 1 : Nat) : Int)) ∧
    (FIFO.handle_page_fault S a).listfree = (if k + 1 = S.numframes then -1 else (S.numframes : Int) - 1) ∧
    (FIFO.handle_page_fault S a).listoccupied = (k : Int) ∧
    (FIFO.handle_page_fault S a).pgt.length = S.pgt.length ∧
    (FIFO.handle_page_fault S a).frt.length = S.frt.length ∧
    (FIFO.handle_page_fault S a).pagsz = S.pagsz ∧
    (FIFO.handle_page_fault S a).numpags = S.numpags ∧
    (FIFO.handle_page_fault S a).numframes = S.numframes ∧
    (FIFO.handle_page_fault S a).clock = S.clock := by
  obtain ⟨hpl, hfl, hn1, hkn, hiff, hchain, hfreepg, hoccpg⟩ := hF
  obtain ⟨ho1, ho2, ho3⟩ := hO
  obtain ⟨hlf, hnext, hchain2⟩ := hchain hk
  have hfree : S.listfree ≠ -1 := by rw [hlf]; omega
  have htn : S.listfree.toNat = S.numframes - 1 := by rw [hlf]; omega
  have hval : (aget S.frt S.listfree.toNat).next = (k : Int) := by rw [htn]; exact hnext
  have hp' : a / S.pagsz < S.pgt.length := by omega
  have hk' : k < S.frt.length := by omega
  rw [fifo_handle_free_eq S a hfree]
  by_cases hlast : k = S.numframes - 1
  · rw [if_pos (by rw [hval, hlf]; omega)]
    rw [hval]
    simp only [Int.toNat_natCast]
    rcases Nat.eq_zero_or_pos k with hk0 | hkpos
    · obtain ⟨n1, n2, n3, n4, n5, n6, n7, n8, n9, n10, n11, n12, n13, n14⟩ :=
        fifo_occupy_spec_neg { S with numpagefaults := S.numpagefaults + 1, listfree := -1 }
          k (a / S.pagsz) hp' hk' (ho1 hk0)
      refine ⟨n1, n2, by rw [n3], ⟨k, by omega, by rw [n3]⟩, ?_, ?_, ?_, ?_, ?_, n5, n7, n8, n9, n10, n11, n12⟩
      · intro f hf; omega
      · intro f hf; omega
      · intro f hf1 hf2; omega
      · intro hcontra; omega
      · rw [n6, if_pos (by omega)]
    · obtain ⟨l, hl1, hl2⟩ := ho2 hkpos
      have hlfr : l < S.frt.length := by omega
      have hlk : l ≠ k := by omega
      obtain ⟨p1, p2, p3, p4, p5, p6, p7, p8, p9, p10, p11, p12, p13, p14, p15⟩ :=
        fifo_occupy_spec_pos { S with numpagefaults := S.numpagefaults + 1, listfree := -1 }
          k (a / S.pagsz) l hp' hk' hl1 hlfr hlk
      obtain ⟨ml, hml1, hml2⟩ := ho3 l hl2
      refine ⟨p1, p2, by rw [p3], ⟨ml, by omega, by rw [p3]; exact hml1⟩, ?_, ?_, ?_, ?_, ?_, p6, p8, p9, p10, p11, p12, p13⟩
      · intro f hf
        by_cases hfl2 : f = l
        · subst hfl2; rw [p4]
        · rw [p5 f (by omega) hfl2]
      · intro f hf
        by_cases hfl2 : f = l
        · subst hfl2
          exact ⟨k, by omega, by rw [p4]⟩
        · obtain ⟨mf, hmf1, hmf2⟩ := ho3 f hf
          exact ⟨mf, by omega, by rw [p5 f (by omega) hfl2]; exact hmf1⟩
      · intro f hf1 hf2; omega
      · intro hcontra; omega
      · rw [p7, if_pos (by omega)]
  · have hkn2 : k + 1 < S.numframes := by omega
    rw [if_neg (by rw [hval, hlf]; omega)]
    rw [hval, htn]
    simp only [Int.toNat_natCast]
    have hnext_k : (aget S.frt k).next = (k : Int) + 1 := hchain2 k (le_refl k) hkn2
    have hS1fl : ((S.frt.set (S.numframes - 1) { aget S.frt (S.numframes - 1) with next := (aget S.frt k).next }).length) = S.frt.length := by
      simp
    have hn1ne : S.numframes - 1 ≠ k := by omega
    have hagS1 : ∀ f : Nat, f ≠ S.numframes - 1 →
        aget (S.frt.set (S.numframes - 1) { aget S.frt (S.numframes - 1) with next := (aget S.frt k).next }) f = aget S.frt f := by
      intro f hf
      exact aget_set_ne _ _ _ _ hf
    have hagS1top : aget (S.frt.set (S.numframes - 1) { aget S.frt (S.numframes - 1) with next := (aget S.frt k).next }) (S.numframes - 1) = { aget S.frt (S.numframes - 1) with next := (aget S.frt k).next } := by
      exact aget_set_self _ _ _ (by omega)
    rcases Nat.eq_zero_or_pos k with hk0 | hkpos
    · obtain ⟨n1, n2, n3, n4, n5, n6, n7, n8, n9, n10, n11, n12, n13, n14⟩ :=
        fifo_occupy_spec_neg { S with numpagefaults := S.numpagefaults + 1, frt := (S.frt.set (S.numframes - 1) { aget S.frt (S.numframes - 1) with next := (aget S.frt k).next }) }
          k (a / S.pagsz) hp' (by rw [show ({ S with numpagefaults := S.numpagefaults + 1, frt := (S.frt.set (S.numframes - 1) { aget S.frt (S.numframes - 1) with next := (aget S.frt k).next }) } : ssystem).frt.length = S.frt.length from hS1fl]; omega) (ho1 hk0)
      refine ⟨n1, n2, by rw [n3], ⟨k, by omega, by rw [n3]⟩, ?_, ?_, ?_, ?_, ?_, n5, n7, ?_, n9, n10, n11, n12⟩
      · intro f hf; omega
      · intro f hf; omega
      · intro f hf1 hf2
        rw [n4 f (by omega), hagS1 f (by omega)]
      · intro _
        constructor
        · rw [n4 _ (by omega), hagS1top]
          exact hfreepg (S.numframes - 1) (by omega) (by omega)
        · rw [n4 _ (by omega), hagS1top]
          show (aget S.frt k).next = _
          rw [hnext_k]
          simp
      · rw [n6, if_neg (by omega)]
        exact hlf
      · rw [n8]
        exact hS1fl
    · obtain ⟨l, hl1, hl2⟩ := ho2 hkpos
      have hlfr : l < S.frt.length := by omega
      have hlk : l ≠ k := by omega
      have hln1 : l ≠ S.numframes - 1 := by omega
      obtain ⟨p1, p2, p3, p4, p5, p6, p7, p8, p9, p10, p11, p12, p13, p14, p15⟩ :=
        fifo_occupy_spec_pos { S with numpagefaults := S.numpagefaults + 1, frt := (S.frt.set (S.numframes - 1) { aget S.frt (S.numframes - 1) with next := (aget S.frt k).next }) }
          k (a / S.pagsz) l hp' (by rw [show ({ S with numpagefaults := S.numpagefaults + 1, frt := (S.frt.set (S.numframes - 1) { aget S.frt (S.numframes - 1) with next := (aget S.frt k).next }) } : ssystem).frt.length = S.frt.length from hS1fl]; omega) hl1 (by rw [show ({ S with numpagefaults := S.numpagefaults + 1, frt := (S.frt.set (S.numframes - 1) { aget S.frt (S.numframes - 1) with next := (aget S.frt k).next }) } : ssystem).frt.length = S.frt.length from hS1fl]; omega) hlk
      obtain ⟨ml, hml1, hml2⟩ := ho3 l hl2
      refine ⟨p1, p2, by rw [p3], ?_, ?_, ?_, ?_, ?_, ?_, p6, p8, ?_, p10, p11, p12, p13⟩
      · refine ⟨ml, by omega, ?_⟩
        rw [p3]
        rw [hagS1 l hln1]
        exact hml1
      · intro f hf
        by_cases hfl2 : f = l
        · subst hfl2
          rw [p4]
          rw [hagS1 f hln1]
        · rw [p5 f (by omega) hfl2, hagS1 f (by omega)]
      · intro f hf
        by_cases hfl2 : f = l
        · subst hfl2
          exact ⟨k, by omega, by rw [p4]⟩
        · obtain ⟨mf, hmf1, hmf2⟩ := ho3 f hf
          refine ⟨mf, by omega, ?_⟩
          rw [p5 f (by omega) hfl2, hagS1 f (by omega)]
          exact hmf1
      · intro f hf1 hf2
        rw [p5 f (by omega) (by omega), hagS1 f (by omega)]
      · intro _
        constructor
        · rw [p5 _ (by omega) (by omega), hagS1top]
          exact hfreepg (S.numframes - 1) (by omega) (by omega)
        · rw [p5 _ (by omega) (by omega), hagS1top]
          show (aget S.frt k).next = _
          rw [hnext_k]
          simp
      · rw [p7, if_neg (by omega)]
        exact hlf
      · rw [p9]
        exact hS1fl

theorem lru_handle_free_spec (S : ssystem) (a : Nat) (k : Nat)
    (hF : FreeInv S k) (hk : k < S.numframes) (hp : a / S.pagsz < S.numpags) :
    aget (LRU.handle_page_fault S a).pgt (a / S.pagsz) = { present := true, frame := (k : Int), modified := false, referenced := false, timestamp := 0 } ∧
    (∀ q : Nat, q ≠ a / S.pagsz → aget (LRU.handle_page_fault S a).pgt q = aget S.pgt q) ∧
    (aget (LRU.handle_page_fault S a).frt k).page = ((a / S.pagsz : Nat) : Int) ∧
    (∀ f : Nat, f < k → aget (LRU.handle_page_fault S a).frt f = aget S.frt f) ∧
    (∀ f : Nat, k < f → f < S.numframes - 1 → aget (LRU.handle_page_fault S a).frt f = aget S.frt f) ∧
    (k + 1 < S.numframes → (aget (LRU.handle_page_fault S a).frt (S.numframes - 1)).page = -1 ∧
      (aget (LRU.handle_page_fault S a).frt (S.numframes - 1)).next = ((k + 1 : Nat) : Int)) ∧
    (LRU.handle_page_fault S a).listfree = (if k + 1 = S.numframes then -1 else (S.numframes : Int) - 1) ∧
    (LRU.handle_page_fault S a).listoccupied = S.listoccupied ∧
    (LRU.handle_page_fault S a).pgt.length = S.pgt.length ∧
    (LRU.handle_page_fault S a).frt.length = S.frt.length ∧
    (LRU.handle_page_fault S a).pagsz = S.pagsz ∧
    (LRU.handle_page_fault S a).numpags = S.numpags ∧
    (LRU.handle_page_fault S a).numframes = S.numframes ∧
    (LRU.handle_page_fault S a).clock = S.clock := by
  obtain ⟨hpl, hfl, hn1, hkn, hiff, hchain, hfreepg, hoccpg⟩ := hF
  obtain ⟨hlf, hnext, hchain2⟩ := hchain hk
  have hfree : S.listfree ≠ -1 := by rw [hlf]; omega
  have htn : S.listfree.toNat = S.numframes - 1 := by rw [hlf]; omega
  have hval : (aget S.frt S.listfree.toNat).next = (k : Int) := by rw [htn]; exact hnext
  have hp' : a / S.pagsz < S.pgt.length := by omega
  have hk' : k < S.frt.length := by omega
  rw [lru_handle_free_eq S a hfree]
  by_cases hlast : k = S.numframes - 1
  · rw [if_pos (by rw [hval, hlf]; omega)]
    rw [hval]
    simp only [Int.toNat_natCast]
    obtain ⟨n1, n2, n3, n4, n5, n6, n7, n8, n9, n10, n11, n12, n13, n14⟩ :=
      lru_occupy_spec { S with numpagefaults := S.numpagefaults + 1, listfree := -1 }
        k (a / S.pagsz) hp' hk'
    refine ⟨n1, n2, by rw [n3], ?_, ?_, ?_, ?_, n5, n7, n8, n9, n10, n11, n12⟩
    · intro f hf
      exact n4 f (by omega)
    · intro f hf1 hf2; omega
    · intro hcontra; omega
    · rw [n6, if_pos (by omega)]
  · have hkn2 : k + 1 < S.numframes := by omega
    rw [if_neg (by rw [hval, hlf]; omega)]
    rw [hval, htn]
    simp only [Int.toNat_natCast]
    have hnext_k : (aget S.frt k).next = (k : Int) + 1 := hchain2 k (le_refl k) hkn2
    have hS1fl : ((S.frt.set (S.numframes - 1) { aget S.frt (S.numframes - 1) with next := (aget S.frt k).next }).length) = S.frt.length := by
      simp
    have hagS1 : ∀ f : Nat, f ≠ S.numframes - 1 →
        aget (S.frt.set (S.numframes - 1) { aget S.frt (S.numframes - 1) with next := (aget S.frt k).next }) f = aget S.frt f := by
      intro f hf
      exact aget_set_ne _ _ _ _ hf
    have hagS1top : aget (S.frt.set (S.numframes - 1) { aget S.frt (S.numframes - 1) with next := (aget S.frt k).next }) (S.numframes - 1) = { aget S.frt (S.numframes - 1) with next := (aget S.frt k).next } := by
      exact aget_set_self _ _ _ (by omega)
    obtain ⟨n1, n2, n3, n4, n5, n6, n7, n8, n9, n10, n11, n12, n13, n14⟩ :=
      lru_occupy_spec { S with numpagefaults := S.numpagefaults + 1, frt := (S.frt.set (S.numframes - 1) { aget S.frt (S.numframes - 1) with next := (aget S.frt k).next }) }
        k (a / S.pagsz) hp' (by rw [show ({ S with numpagefaults := S.numpagefaults + 1, frt := (S.frt.set (S.numframes - 1) { aget S.frt (S.numframes - 1) with next := (aget S.frt k).next }) } : ssystem).frt.length = S.frt.length from hS1fl]; omega)
    refine ⟨n1, n2, by rw [n3], ?_, ?_, ?_, ?_, n5, n7, ?_, n9, n10, n11, n12⟩
    · intro f hf
      rw [n4 f (by omega), hagS1 f (by omega)]
    · intro f hf1 hf2
      rw [n4 f (by omega), hagS1 f (by omega)]
    · intro _
      constructor
      · rw [n4 _ (by omega), hagS1top]
        exact hfreepg (S.numframes - 1) (by omega) (by omega)
      · rw [n4 _ (by omega), hagS1top]
        show (aget S.frt k).next = _
        rw [hnext_k]
        simp
    · rw [n6, if_neg (by omega)]
      exact hlf
    · rw [n8]
      exact hS1fl

theorem natCast_ne_neg_one (x : Nat) : ((x : Nat) : Int) ≠ -1 := by omega

theorem fifo_free_preserves (S : ssystem) (a : Nat) (k : Nat)
    (hF : FreeInv S k) (hC : ConsInv S k) (hO : FifoInv S k)
    (hk : k < S.numframes) (hp : a / S.pagsz < S.numpags)
    (habs : (aget S.pgt (a / S.pagsz)).present = false) :
    FreeInv (FIFO.handle_page_fault S a) (k + 1) ∧
    ConsInv (FIFO.handle_page_fault S a) (k + 1) ∧
    FifoInv (FIFO.handle_page_fault S a) (k + 1) := by
  obtain ⟨s1, s2, s3, s4, s5, s6, s7, s8, s9, s10, s11, s12, s13, s14, s15, s16⟩ :=
    fifo_handle_free_spec S a k hF hO hk hp
  obtain ⟨hpl, hfl, hn1, hkn, hiff, hchain, hfreepg, hoccpg⟩ := hF
  refine ⟨⟨?_, ?_, ?_, ?_, ?_, ?_, ?_, ?_⟩, ⟨?_, ?_⟩, ⟨?_, ?_, ?_⟩⟩
  · rw [s11, s14]; exact hpl
  · rw [s12, s15]; exact hfl
  · rw [s15]; exact hn1
  · rw [s15]; omega
  · rw [s9, s15]
    by_cases h : k + 1 = S.numframes
    · simp [h]
    · rw [if_neg h]
      constructor
      · intro hh; omega
      · intro hh; omega
  · intro h
    rw [s15] at h
    refine ⟨by rw [s9, s15, if_neg (by omega)], ?_, ?_⟩
    · rw [s15]
      exact (s8 h).2
    · intro i hi1 hi2
      rw [s15] at hi2
      rw [s7 i (by omega) (by omega)]
      exact (hchain hk).2.2 i (by omega) (by omega)
  · intro i hi1 hi2
    rw [s15] at hi2
    by_cases htop : i = S.numframes - 1
    · subst htop
      by_cases hkk : k + 1 < S.numframes
      · exact (s8 hkk).1
      · omega
    · rw [s7 i (by omega) (by omega)]
      exact hfreepg i (by omega) (by omega)
  · intro f hf
    by_cases hfk : f = k
    · subst hfk
      rw [s3]
      exact natCast_ne_neg_one _
    · rw [s5 f (by omega)]
      exact hoccpg f (by omega)
  · intro f hf
    by_cases hfk : f = k
    · subst hfk
      refine ⟨a / S.pagsz, by rw [s3], by rw [s14]; exact hp, by rw [s1], by rw [s1]⟩
    · obtain ⟨q, b1, b2, b3, b4⟩ := hC.1 f (by omega)
      have hqp : q ≠ a / S.pagsz := by
        intro hh
        rw [hh] at b3
        rw [habs] at b3
        cases b3
      refine ⟨q, ?_, by rw [s14]; exact b2, by rw [s2 q hqp]; exact b3, by rw [s2 q hqp]; exact b4⟩
      rw [s5 f (by omega)]
      exact b1
  · intro q hq hqpres
    rw [s14] at hq
    by_cases hqp : q = a / S.pagsz
    · subst hqp
      refine ⟨k, by rw [s1], by omega, by rw [s3]⟩
    · rw [s2 q hqp] at hqpres
      obtain ⟨f, b1, b2, b3⟩ := hC.2 q hq hqpres
      refine ⟨f, by rw [s2 q hqp]; exact b1, by omega, ?_⟩
      rw [s5 f (by omega)]
      exact b3
  · intro h; omega
  · intro _
    exact ⟨k, s10, by omega⟩
  · intro f hf
    by_cases hfk : f = k
    · subst hfk
      obtain ⟨mm, c1, c2⟩ := s4
      exact ⟨mm, c2, c1⟩
    · obtain ⟨mm, c1, c2⟩ := s6 f (by omega)
      exact ⟨mm, c2, c1⟩

theorem lru_free_preserves (S : ssystem) (a : Nat) (k : Nat)
    (hF : FreeInv S k) (hk : k < S.numframes) (hp : a / S.pagsz < S.numpags) :
    FreeInv (LRU.handle_page_fault S a) (k + 1) ∧
    ((aget S.pgt (a / S.pagsz)).present = false → ConsInv S k →
      ConsInv (LRU.handle_page_fault S a) (k + 1)) ∧
    (ClockInv S → ClockInv (LRU.handle_page_fault S a)) := by
  obtain ⟨s1, s2, s3, s4, s5, s6, s7, s8, s9, s10, s11, s12, s13, s14⟩ :=
    lru_handle_free_spec S a k hF hk hp
  obtain ⟨hpl, hfl, hn1, hkn, hiff, hchain, hfreepg, hoccpg⟩ := hF
  refine ⟨⟨?_, ?_, ?_, ?_, ?_, ?_, ?_, ?_⟩, ?_, ?_⟩
  · rw [s9, s12]; exact hpl
  · rw [s10, s13]; exact hfl
  · rw [s13]; exact hn1
  · rw [s13]; omega
  · rw [s7, s13]
    by_cases h : k + 1 = S.numframes
    · simp [h]
    · rw [if_neg h]
      constructor
      · intro hh; omega
      · intro hh; omega
  · intro h
    rw [s13] at h
    refine ⟨by rw [s7, s13, if_neg (by omega)], ?_, ?_⟩
    · rw [s13]
      exact (s6 h).2
    · intro i hi1 hi2
      rw [s13] at hi2
      rw [s5 i (by omega) (by omega)]
      exact (hchain hk).2.2 i (by omega) (by omega)
  · intro i hi1 hi2
    rw [s13] at hi2
    by_cases htop : i = S.numframes - 1
    · subst htop
      by_cases hkk : k + 1 < S.numframes
      · exact (s6 hkk).1
      · omega
    · rw [s5 i (by omega) (by omega)]
      exact hfreepg i (by omega) (by omega)
  · intro f hf
    by_cases hfk : f = k
    · subst hfk
      rw [s3]
      exact natCast_ne_neg_one _
    · rw [s4 f (by omega)]
      exact hoccpg f (by omega)
  · intro habs hC
    constructor
    · intro f hf
      by_cases hfk : f = k
      · subst hfk
        refine ⟨a / S.pagsz, by rw [s3], by rw [s12]; exact hp, by rw [s1], by rw [s1]⟩
      · obtain ⟨q, b1, b2, b3, b4⟩ := hC.1 f (by omega)
        have hqp : q ≠ a / S.pagsz := by
          intro hh
          rw [hh] at b3
          rw [habs] at b3
          cases b3
        refine ⟨q, ?_, by rw [s12]; exact b2, by rw [s2 q hqp]; exact b3, by rw [s2 q hqp]; exact b4⟩
        rw [s4 f (by omega)]
        exact b1
    · intro q hq hqpres
      rw [s12] at hq
      by_cases hqp : q = a / S.pagsz
      · subst hqp
        refine ⟨k, by rw [s1], by omega, by rw [s3]⟩
      · rw [s2 q hqp] at hqpres
        obtain ⟨f, b1, b2, b3⟩ := hC.2 q hq hqpres
        refine ⟨f, by rw [s2 q hqp]; exact b1, by omega, ?_⟩
        rw [s4 f (by omega)]
        exact b3
  · intro hClock q
    rw [s14]
    by_cases hqp : q = a / S.pagsz
    · subst hqp
      rw [s1]
      exact Nat.zero_le _
    · rw [s2 q hqp]
      exact hClock q

theorem fifo_evict_preserves (S : ssystem) (a : Nat)
    (hF : FreeInv S S.numframes) (hC : ConsInv S S.numframes) (hO : FifoInv S S.numframes)
    (hp : a / S.pagsz < S.numpags)
    (habs : (aget S.pgt (a / S.pagsz)).present = false) :
    (∃ v : Nat, FIFO.choose_page_to_be_replaced S = (v : Int) ∧ v < S.numpags ∧
      (aget S.pgt v).present = true) ∧
    FreeInv (FIFO.handle_page_fault S a) S.numframes ∧
    ConsInv (FIFO.handle_page_fault S a) S.numframes ∧
    FifoInv (FIFO.handle_page_fault S a) S.numframes ∧
    (aget (FIFO.handle_page_fault S a).pgt (a / S.pagsz)).present = true ∧
    (∃ m : Nat, m < S.numframes ∧
      (aget (FIFO.handle_page_fault S a).pgt (a / S.pagsz)).frame = (m : Int) ∧
      (aget (FIFO.handle_page_fault S a).frt m).page = ((a / S.pagsz : Nat) : Int)) := by
  obtain ⟨hpl, hfl, hn1, hkn, hiff, hchain, hfreepg, hoccpg⟩ := hF
  have hfree : S.listfree = -1 := hiff.mpr rfl
  obtain ⟨l, hl1, hl2⟩ := hO.2.1 (by omega)
  obtain ⟨m', hm'1, hm'2⟩ := hO.2.2 l hl2
  obtain ⟨q, hq1, hq2, hq3, hq4⟩ := hC.1 m' (by omega)
  have hchoose : FIFO.choose_page_to_be_replaced S = (q : Int) := by
    show (aget S.frt (aget S.frt S.listoccupied.toNat).next.toNat).page = (q : Int)
    rw [hl1]
    simp only [Int.toNat_natCast]
    rw [hm'1]
    simp only [Int.toNat_natCast]
    exact hq1
  have hqp : q ≠ a / S.pagsz := by
    intro hh
    rw [hh, habs] at hq3
    cases hq3
  have hrw : FIFO.handle_page_fault S a =
      FIFO.replace_page { S with numpagefaults := S.numpagefaults + 1 } (q : Int) (a / S.pagsz) := by
    rw [fifo_handle_evict_eq S a hfree, hchoose]
  obtain ⟨r1, r2, r3, r4, r5, r6, r7, r8, r9, r10, r11, r12, r13, r14, r15⟩ :=
    fifo_replace_spec { S with numpagefaults := S.numpagefaults + 1 } q (a / S.pagsz) m'
      (by exact (show q < S.pgt.length by omega))
      (by exact (show a / S.pagsz < S.pgt.length by omega)) hqp hq4
      (by exact (show m' < S.frt.length by omega))
  have t1 : aget (FIFO.handle_page_fault S a).pgt q = { aget S.pgt q with present := false, frame := -1, modified := false } := by rw [hrw]; exact r1
  have t2 : aget (FIFO.handle_page_fault S a).pgt (a / S.pagsz) = { present := true, frame := (m' : Int), modified := false, referenced := false, timestamp := 0 } := by rw [hrw]; exact r2
  have t3 : ∀ q' : Nat, q' ≠ q → q' ≠ a / S.pagsz → aget (FIFO.handle_page_fault S a).pgt q' = aget S.pgt q' := by
    intro q' h1 h2; rw [hrw]; exact r3 q' h1 h2
  have t4 : aget (FIFO.handle_page_fault S a).frt m' = { page := ((a / S.pagsz : Nat) : Int), next := (aget S.frt m').next } := by rw [hrw]; exact r4
  have t5 : ∀ f : Nat, f ≠ m' → aget (FIFO.handle_page_fault S a).frt f = aget S.frt f := by
    intro f h1; rw [hrw]; exact r5 f h1
  have t6 : (FIFO.handle_page_fault S a).listoccupied = (m' : Int) := by rw [hrw]; exact r6
  have t7 : (FIFO.handle_page_fault S a).listfree = S.listfree := by rw [hrw]; exact r7
  have t8 : (FIFO.handle_page_fault S a).pgt.length = S.pgt.length := by rw [hrw]; exact r8
  have t9 : (FIFO.handle_page_fault S a).frt.length = S.frt.length := by rw [hrw]; exact r9
  have t11 : (FIFO.handle_page_fault S a).numpags = S.numpags := by rw [hrw]; exact r11
  have t12 : (FIFO.handle_page_fault S a).numframes = S.numframes := by rw [hrw]; exact r12
  refine ⟨⟨q, hchoose, hq2, hq3⟩, ⟨?_, ?_, ?_, ?_, ?_, ?_, ?_, ?_⟩, ⟨?_, ?_⟩, ⟨?_, ?_, ?_⟩, ?_, ?_⟩
  · rw [t8, t11]; exact hpl
  · rw [t9, t12]; exact hfl
  · rw [t12]; exact hn1
  · rw [t12]
  · rw [t7, t12]
    constructor
    · intro _; exact rfl
    · intro _; exact hfree
  · intro h
    rw [t12] at h
    exact absurd h (by omega)
  · intro i hi1 hi2
    rw [t12] at hi2
    omega
  · intro f hf
    by_cases hfm : f = m'
    · subst hfm
      rw [t4]
      exact natCast_ne_neg_one _
    · rw [t5 f hfm]
      exact hoccpg f hf
  · intro f hf
    by_cases hfm : f = m'
    · subst hfm
      refine ⟨a / S.pagsz, by rw [t4], by rw [t11]; exact hp, by rw [t2], by rw [t2]⟩
    · obtain ⟨qf, c1, c2, c3, c4⟩ := hC.1 f hf
      have hqfq : qf ≠ q := by
        intro hh
        rw [hh] at c4
        rw [hq4] at c4
        have hfmm : f = m' := by omega
        exact hfm hfmm
      have hqfp : qf ≠ a / S.pagsz := by
        intro hh
        rw [hh, habs] at c3
        cases c3
      refine ⟨qf, by rw [t5 f hfm]; exact c1, by rw [t11]; exact c2,
        by rw [t3 qf hqfq hqfp]; exact c3, by rw [t3 qf hqfq hqfp]; exact c4⟩
  · intro q' hq' hq'pres
    rw [t11] at hq'
    by_cases hq'p : q' = a / S.pagsz
    · subst hq'p
      refine ⟨m', by rw [t2], by omega, by rw [t4]⟩
    · by_cases hq'q : q' = q
      · subst hq'q
        rw [t1] at hq'pres
        cases hq'pres
      · rw [t3 q' hq'q hq'p] at hq'pres
        obtain ⟨f, b1, b2, b3⟩ := hC.2 q' hq' hq'pres
        have hfm : f ≠ m' := by
          intro hh
          rw [hh] at b3
          rw [hq1] at b3
          have hqq : q' = q := by omega
          exact hq'q hqq
        refine ⟨f, by rw [t3 q' hq'q hq'p]; exact b1, b2, ?_⟩
        rw [t5 f hfm]
        exact b3
  · intro h
    exact absurd h (by omega)
  · intro _
    refine ⟨m', t6, by omega⟩
  · intro f hf
    obtain ⟨mm, d1, d2⟩ := hO.2.2 f hf
    by_cases hfm : f = m'
    · subst hfm
      refine ⟨mm, ?_, by omega⟩
      rw [t4]
      exact d1
    · refine ⟨mm, by rw [t5 f hfm]; exact d1, by omega⟩
  · rw [t2]
  · refine ⟨m', by omega, by rw [t2], by rw [t4]⟩

theorem lru_evict_freeinv (S : ssystem) (a : Nat) (hF : FreeInv S S.numframes) :
    FreeInv (LRU.handle_page_fault S a) S.numframes := by
  obtain ⟨hpl, hfl, hn1, hkn, hiff, hchain, hfreepg, hoccpg⟩ := hF
  have hfree : S.listfree = -1 := hiff.mpr rfl
  have hrw : LRU.handle_page_fault S a =
      LRU.replace_page { S with numpagefaults := S.numpagefaults + 1 }
        (LRU.choose_page_to_be_replaced S) (a / S.pagsz) := lru_handle_evict_eq S a hfree
  have hTpl : (LRU.handle_page_fault S a).pgt.length = S.pgt.length := by
    rw [hrw, lru_replace_eq_int]
    simp
  have hTfrt : (LRU.handle_page_fault S a).frt =
      S.frt.set (aget S.pgt (LRU.choose_page_to_be_replaced S).toNat).frame.toNat
        { aget S.frt (aget S.pgt (LRU.choose_page_to_be_replaced S).toNat).frame.toNat with page := ((a / S.pagsz : Nat) : Int) } := by
    rw [hrw, lru_replace_eq_int]
  have hTfl : (LRU.handle_page_fault S a).frt.length = S.frt.length := by
    rw [hTfrt]
    simp
  have hTnp : (LRU.handle_page_fault S a).numpags = S.numpags := by
    rw [hrw, lru_replace_eq_int]
  have hTnf : (LRU.handle_page_fault S a).numframes = S.numframes := by
    rw [hrw, lru_replace_eq_int]
  have hTlf : (LRU.handle_page_fault S a).listfree = S.listfree := by
    rw [hrw, lru_replace_eq_int]
  refine ⟨by rw [hTpl, hTnp]; exact hpl, by rw [hTfl, hTnf]; exact hfl,
    by rw [hTnf]; exact hn1, by rw [hTnf], ?_, ?_, ?_, ?_⟩
  · rw [hTlf, hTnf, hfree]
    constructor
    · intro _; exact rfl
    · intro _; exact rfl
  · intro h
    rw [hTnf] at h
    exact absurd h (by omega)
  · intro i hi1 hi2
    rw [hTnf] at hi2
    omega
  · intro f hf
    rw [hTfrt]
    by_cases hj : f = (aget S.pgt (LRU.choose_page_to_be_replaced S).toNat).frame.toNat
    · by_cases hlen : (aget S.pgt (LRU.choose_page_to_be_replaced S).toNat).frame.toNat < S.frt.length
      · rw [hj, aget_set_self _ _ _ hlen]
        exact natCast_ne_neg_one _
      · rw [set_oob _ _ _ (by omega)]
        exact hoccpg f hf
    · rw [aget_set_ne _ _ _ _ hj]
      exact hoccpg f hf

theorem lru_evict_preserves (S : ssystem) (a : Nat)
    (hF : FreeInv S S.numframes) (hC : ConsInv S S.numframes) (hK : ClockInv S)
    (hclk : S.clock < 4294967295)
    (hp : a / S.pagsz < S.numpags)
    (habs : (aget S.pgt (a / S.pagsz)).present = false) :
    (∃ v : Nat, LRU.choose_page_to_be_replaced S = (v : Int) ∧ v < S.numpags ∧
      (aget S.pgt v).present = true) ∧
    FreeInv (LRU.handle_page_fault S a) S.numframes ∧
    ConsInv (LRU.handle_page_fault S a) S.numframes ∧
    ClockInv (LRU.handle_page_fault S a) ∧
    (aget (LRU.handle_page_fault S a).pgt (a / S.pagsz)).present = true ∧
    (∃ m : Nat, m < S.numframes ∧
      (aget (LRU.handle_page_fault S a).pgt (a / S.pagsz)).frame = (m : Int) ∧
      (aget (LRU.handle_page_fault S a).frt m).page = ((a / S.pagsz : Nat) : Int)) := by
  obtain ⟨hpl, hfl, hn1, hkn, hiff, hchain, hfreepg, hoccpg⟩ := hF
  have hfree : S.listfree = -1 := hiff.mpr rfl
  obtain ⟨q0, hq01, hq02, hq03, hq04⟩ := hC.1 0 (by omega)
  have hq0ts : (aget S.pgt q0).timestamp < 4294967295 := lt_of_le_of_lt (hK q0) hclk
  rcases chooseFold_cases S.pgt S.numpags with ⟨heq, hall⟩ | ⟨v, hvn, heq, hpres, hlt', hmin, hstrict⟩
  · exact absurd (hall q0 hq02 hq03) (by omega)
  have hchoose : LRU.choose_page_to_be_replaced S = (v : Int) := by
    show (LRU.chooseFold S.pgt S.numpags).1 = (v : Int)
    rw [heq]
  obtain ⟨mv, hv4, hmv2, hv5⟩ := hC.2 v hvn hpres
  have hvp : v ≠ a / S.pagsz := by
    intro hh
    rw [hh, habs] at hpres
    cases hpres
  have hrw : LRU.handle_page_fault S a =
      LRU.replace_page { S with numpagefaults := S.numpagefaults + 1 } (v : Int) (a / S.pagsz) := by
    rw [lru_handle_evict_eq S a hfree, hchoose]
  obtain ⟨r1, r2, r3, r4, r5, r6, r7, r8, r9, r10, r11, r12, r13, r14, r15⟩ :=
    lru_replace_spec { S with numpagefaults := S.numpagefaults + 1 } v (a / S.pagsz) mv
      (by exact (show v < S.pgt.length by omega))
      (by exact (show a / S.pagsz < S.pgt.length by omega)) hvp hv4
      (by exact (show mv < S.frt.length by omega))
  have t1 : aget (LRU.handle_page_fault S a).pgt v = { aget S.pgt v with present := false } := by
    rw [hrw]; exact r1
  have t2 : aget (LRU.handle_page_fault S a).pgt (a / S.pagsz) = { aget S.pgt (a / S.pagsz) with present := true, frame := (mv : Int), modified := false } := by
    rw [hrw]; exact r2
  have t3 : ∀ q' : Nat, q' ≠ v → q' ≠ a / S.pagsz → aget (LRU.handle_page_fault S a).pgt q' = aget S.pgt q' := by
    intro q' h1 h2; rw [hrw]; exact r3 q' h1 h2
  have t4 : aget (LRU.handle_page_fault S a).frt mv = { page := ((a / S.pagsz : Nat) : Int), next := (aget S.frt mv).next } := by
    rw [hrw]; exact r4
  have t5 : ∀ f : Nat, f ≠ mv → aget (LRU.handle_page_fault S a).frt f = aget S.frt f := by
    intro f h1; rw [hrw]; exact r5 f h1
  have t7 : (LRU.handle_page_fault S a).listfree = S.listfree := by rw [hrw]; exact r7
  have t8 : (LRU.handle_page_fault S a).pgt.length = S.pgt.length := by rw [hrw]; exact r8
  have t9 : (LRU.handle_page_fault S a).frt.length = S.frt.length := by rw [hrw]; exact r9
  have t11 : (LRU.handle_page_fault S a).numpags = S.numpags := by rw [hrw]; exact r11
  have t12 : (LRU.handle_page_fault S a).numframes = S.numframes := by rw [hrw]; exact r12
  have t13 : (LRU.handle_page_fault S a).clock = S.clock := by rw [hrw]; exact r13
  refine ⟨⟨v, hchoose, hvn, hpres⟩, ⟨?_, ?_, ?_, ?_, ?_, ?_, ?_, ?_⟩, ⟨?_, ?_⟩, ?_, ?_, ?_⟩
  · rw [t8, t11]; exact hpl
  · rw [t9, t12]; exact hfl
  · rw [t12]; exact hn1
  · rw [t12]
  · rw [t7, t12]
    constructor
    · intro _; exact rfl
    · intro _; exact hfree
  · intro h
    rw [t12] at h
    exact absurd h (by omega)
  · intro i hi1 hi2
    rw [t12] at hi2
    omega
  · intro f hf
    by_cases hfm : f = mv
    · subst hfm
      rw [t4]
      exact natCast_ne_neg_one _
    · rw [t5 f hfm]
      exact hoccpg f hf
  · intro f hf
    by_cases hfm : f = mv
    · subst hfm
      refine ⟨a / S.pagsz, by rw [t4], by rw [t11]; exact hp, by rw [t2], by rw [t2]⟩
    · obtain ⟨qf, c1, c2, c3, c4⟩ := hC.1 f hf
      have hqfq : qf ≠ v := by
        intro hh
        rw [hh] at c4
        rw [hv4] at c4
        have hfmm : f = mv := by omega
        exact hfm hfmm
      have hqfp : qf ≠ a / S.pagsz := by
        intro hh
        rw [hh, habs] at c3
        cases c3
      refine ⟨qf, by rw [t5 f hfm]; exact c1, by rw [t11]; exact c2,
        by rw [t3 qf hqfq hqfp]; exact c3, by rw [t3 qf hqfq hqfp]; exact c4⟩
  · intro q' hq' hq'pres
    rw [t11] at hq'
    by_cases hq'p : q' = a / S.pagsz
    · subst hq'p
      refine ⟨mv, by rw [t2], by omega, by rw [t4]⟩
    · by_cases hq'q : q' = v
      · subst hq'q
        rw [t1] at hq'pres
        cases hq'pres
      · rw [t3 q' hq'q hq'p] at hq'pres
        obtain ⟨f, b1, b2, b3⟩ := hC.2 q' hq' hq'pres
        have hfm : f ≠ mv := by
          intro hh
          rw [hh] at b3
          rw [hv5] at b3
          have hqq : q' = v := by omega
          exact hq'q hqq
        refine ⟨f, by rw [t3 q' hq'q hq'p]; exact b1, b2, ?_⟩
        rw [t5 f hfm]
        exact b3
  · intro q'
    rw [t13]
    by_cases hq'p : q' = a / S.pagsz
    · subst hq'p
      rw [t2]
      exact hK _
    · by_cases hq'v : q' = v
      · subst hq'v
        rw [t1]
        exact hK _
      · rw [t3 q' hq'v hq'p]
        exact hK _
  · rw [t2]
  · refine ⟨mv, by omega, by rw [t2], by rw [t4]⟩

theorem lru_reference_clock_eq (S : ssystem) (p : Nat) (op : Char) :
    (LRU.reference_page S p op).clock = (S.clock + 1) % 4294967296 := by
  by_cases hR : op = 'R'
  · subst hR; simp [LRU.reference_page]
  · by_cases hW : op = 'W'
    · subst hW; simp [LRU.reference_page]
    · simp [LRU.reference_page, hR, hW]

theorem lru_reference_ts_other (S : ssystem) (p : Nat) (op : Char) (q : Nat) (hq : q ≠ p) :
    (aget (LRU.reference_page S p op).pgt q).timestamp = (aget S.pgt q).timestamp := by
  by_cases hR : op = 'R'
  · subst hR
    have hpgt : (LRU.reference_page S p 'R').pgt = S.pgt.set p { aget S.pgt p with timestamp := S.clock } := rfl
    rw [hpgt, aget_set_ne _ _ _ _ hq]
  · by_cases hW : op = 'W'
    · subst hW
      have hpgt : (LRU.reference_page S p 'W').pgt = (S.pgt.set p { aget S.pgt p with modified := true }).set p { aget (S.pgt.set p { aget S.pgt p with modified := true }) p with timestamp := S.clock } := rfl
      rw [hpgt, aget_set_ne _ _ _ _ hq, aget_set_ne _ _ _ _ hq]
    · have hpgt : (LRU.reference_page S p op).pgt = S.pgt.set p { aget S.pgt p with timestamp := S.clock } := by
        simp [LRU.reference_page, hR, hW]
      rw [hpgt, aget_set_ne _ _ _ _ hq]

theorem lru_handle_clock (S : ssystem) (a : Nat) :
    (LRU.handle_page_fault S a).clock = S.clock := by
  by_cases hfree : S.listfree = -1
  · rw [lru_handle_evict_eq S a hfree, lru_replace_eq_int]
  · rw [lru_handle_free_eq S a hfree]
    by_cases hc : (aget S.frt S.listfree.toNat).next = S.listfree <;>
      simp [hc, LRU.occupy_free_frame]

theorem invF_step (S : ssystem) (a : Nat) (op : Char) (h : InvF S) :
    InvF (FIFO.sim_mmu S a op).1 := by
  obtain ⟨k, hF, hC, hO⟩ := h
  by_cases hill : S.numpags ≤ a / S.pagsz
  · have h1 : (FIFO.sim_mmu S a op).1 = { S with numillegalrefs := S.numillegalrefs + 1 } := by
      simp [FIFO.sim_mmu, hill]
    rw [h1]
    exact ⟨k, freeInv_transfer S _ k rfl (fun f => rfl) rfl rfl rfl rfl hF,
      consInv_transfer S _ k rfl (fun q => ⟨rfl, rfl⟩) (fun f => rfl) hC,
      fifoInv_transfer S _ k (fun f => rfl) rfl hO⟩
  · by_cases hpres : (aget S.pgt (a / S.pagsz)).present = true
    · have h1 : (FIFO.sim_mmu S a op).1 = FIFO.reference_page S (a / S.pagsz) op := by
        rw [fifo_mmu_present_eq S a op hill hpres]
      rw [h1]
      obtain ⟨f1, f2, f3, _, _, f6, f7, f8, f9, _, fq⟩ := fifo_reference_fields S (a / S.pagsz) op
      exact ⟨k, freeInv_transfer _ _ k f6 (fun f => by rw [f7]) (by rw [f7]) f2 f3 f8 hF,
        consInv_transfer _ _ k f2 fq (fun f => by rw [f7]) hC,
        fifoInv_transfer _ _ k (fun f => by rw [f7]) f9 hO⟩
    · have hab : (aget S.pgt (a / S.pagsz)).present = false := by
        revert hpres; cases (aget S.pgt (a / S.pagsz)).present <;> simp
      have hplegal : a / S.pagsz < S.numpags := Nat.lt_of_not_le hill
      have h1 : (FIFO.sim_mmu S a op).1 =
          FIFO.reference_page (FIFO.handle_page_fault S a) (a / S.pagsz) op := by
        rw [fifo_mmu_absent_eq S a op hill hab]
      rw [h1]
      have hinner : ∃ k', FreeInv (FIFO.handle_page_fault S a) k' ∧
          ConsInv (FIFO.handle_page_fault S a) k' ∧ FifoInv (FIFO.handle_page_fault S a) k' := by
        by_cases hfree : S.listfree = -1
        · have hkn : k = S.numframes := hF.2.2.2.2.1.mp hfree
          subst hkn
          obtain ⟨_, hF', hC', hO', _, _⟩ := fifo_evict_preserves S a hF hC hO hplegal hab
          exact ⟨S.numframes, hF', hC', hO'⟩
        · have hkn : k < S.numframes := by
            have h4 := hF.2.2.2.1
            have hne : k ≠ S.numframes := fun hh => hfree (hF.2.2.2.2.1.mpr hh)
            omega
          obtain ⟨hF', hC', hO'⟩ := fifo_free_preserves S a k hF hC hO hkn hplegal hab
          exact ⟨k + 1, hF', hC', hO'⟩
      obtain ⟨k', hF', hC', hO'⟩ := hinner
      obtain ⟨f1, f2, f3, _, _, f6, f7, f8, f9, _, fq⟩ :=
        fifo_reference_fields (FIFO.handle_page_fault S a) (a / S.pagsz) op
      exact ⟨k', freeInv_transfer _ _ k' f6 (fun f => by rw [f7]) (by rw [f7]) f2 f3 f8 hF',
        consInv_transfer _ _ k' f2 fq (fun f => by rw [f7]) hC',
        fifoInv_transfer _ _ k' (fun f => by rw [f7]) f9 hO'⟩

theorem invF_run (S : ssystem) (t : List (Nat × Char)) (h : InvF S) :
    InvF (FIFO.run S t) := by
  induction t generalizing S with
  | nil => exact h
  | cons e rest ih => exact ih _ (invF_step S e.1 e.2 h)

theorem invF_start (ps np nf : Nat) (hn : 1 ≤ nf) : InvF (start ps np nf) :=
  ⟨0, freeInv_start ps np nf hn, consInv_start ps np nf, fifoInv_start ps np nf⟩

theorem jl_step (S : ssystem) (a : Nat) (op : Char) (h : JL S) :
    JL (LRU.sim_mmu S a op).1 := by
  obtain ⟨k, hF⟩ := h
  by_cases hill : S.numpags ≤ a / S.pagsz
  · have h1 : (LRU.sim_mmu S a op).1 = { S with numillegalrefs := S.numillegalrefs + 1 } := by
      simp [LRU.sim_mmu, hill]
    rw [h1]
    exact ⟨k, freeInv_transfer S _ k rfl (fun f => rfl) rfl rfl rfl rfl hF⟩
  · by_cases hpres : (aget S.pgt (a / S.pagsz)).present = true
    · have h1 : (LRU.sim_mmu S a op).1 = LRU.reference_page S (a / S.pagsz) op := by
        rw [lru_mmu_present_eq S a op hill hpres]
      rw [h1]
      obtain ⟨f1, f2, f3, _, _, f6, f7, f8, f9, fq⟩ := lru_reference_fields S (a / S.pagsz) op
      exact ⟨k, freeInv_transfer _ _ k f6 (fun f => by rw [f7]) (by rw [f7]) f2 f3 f8 hF⟩
    · have hab : (aget S.pgt (a / S.pagsz)).present = false := by
        revert hpres; cases (aget S.pgt (a / S.pagsz)).present <;> simp
      have hplegal : a / S.pagsz < S.numpags := Nat.lt_of_not_le hill
      have h1 : (LRU.sim_mmu S a op).1 =
          LRU.reference_page (LRU.handle_page_fault S a) (a / S.pagsz) op := by
        rw [lru_mmu_absent_eq S a op hill hab]
      rw [h1]
      have hinner : ∃ k', FreeInv (LRU.handle_page_fault S a) k' := by
        by_cases hfree : S.listfree = -1
        · have hkn : k = S.numframes := hF.2.2.2.2.1.mp hfree
          subst hkn
          exact ⟨S.numframes, lru_evict_freeinv S a hF⟩
        · have hkn : k < S.numframes := by
            have h4 := hF.2.2.2.1
            have hne : k ≠ S.numframes := fun hh => hfree (hF.2.2.2.2.1.mpr hh)
            omega
          exact ⟨k + 1, (lru_free_preserves S a k hF hkn hplegal).1⟩
      obtain ⟨k', hF'⟩ := hinner
      obtain ⟨f1, f2, f3, _, _, f6, f7, f8, f9, fq⟩ :=
        lru_reference_fields (LRU.handle_page_fault S a) (a / S.pagsz) op
      exact ⟨k', freeInv_transfer _ _ k' f6 (fun f => by rw [f7]) (by rw [f7]) f2 f3 f8 hF'⟩

theorem jl_run (S : ssystem) (t : List (Nat × Char)) (h : JL S) :
    JL (LRU.run S t) := by
  induction t generalizing S with
  | nil => exact h
  | cons e rest ih => exact ih _ (jl_step S e.1 e.2 h)

theorem jl_start (ps np nf : Nat) (hn : 1 ≤ nf) : JL (start ps np nf) :=
  ⟨0, freeInv_start ps np nf hn⟩

theorem invL_step (S : ssystem) (a : Nat) (op : Char) (h : InvL S)
    (hclk : S.clock < 4294967295) :
    InvL (LRU.sim_mmu S a op).1 ∧ (LRU.sim_mmu S a op).1.clock ≤ S.clock + 1 := by
  obtain ⟨k, hF, hC, hK⟩ := h
  have hmodeq : (S.clock + 1) % 4294967296 = S.clock + 1 := Nat.mod_eq_of_lt (by omega)
  by_cases hill : S.numpags ≤ a / S.pagsz
  · have h1 : (LRU.sim_mmu S a op).1 = { S with numillegalrefs := S.numillegalrefs + 1 } := by
      simp [LRU.sim_mmu, hill]
    rw [h1]
    refine ⟨⟨k, freeInv_transfer S _ k rfl (fun f => rfl) rfl rfl rfl rfl hF,
      consInv_transfer S _ k rfl (fun q => ⟨rfl, rfl⟩) (fun f => rfl) hC,
      clockInv_transfer S _ (fun q => rfl) rfl hK⟩, ?_⟩
    show S.clock ≤ S.clock + 1
    omega
  · by_cases hpres : (aget S.pgt (a / S.pagsz)).present = true
    · have h1 : (LRU.sim_mmu S a op).1 = LRU.reference_page S (a / S.pagsz) op := by
        rw [lru_mmu_present_eq S a op hill hpres]
      rw [h1]
      obtain ⟨f1, f2, f3, _, _, f6, f7, f8, f9, fq⟩ := lru_reference_fields S (a / S.pagsz) op
      have hplen : a / S.pagsz < S.pgt.length := by
        have := hF.1
        have := Nat.lt_of_not_le hill
        omega
      have hclock2 : (LRU.reference_page S (a / S.pagsz) op).clock = S.clock + 1 := by
        rw [lru_reference_clock_eq, hmodeq]
      refine ⟨⟨k, freeInv_transfer _ _ k f6 (fun f => by rw [f7]) (by rw [f7]) f2 f3 f8 hF,
        consInv_transfer _ _ k f2 fq (fun f => by rw [f7]) hC, ?_⟩, by rw [hclock2]⟩
      intro q
      rw [hclock2]
      by_cases hqp : q = a / S.pagsz
      · subst hqp
        rw [lru_reference_ts S (a / S.pagsz) op hplen]
        omega
      · rw [lru_reference_ts_other S (a / S.pagsz) op q hqp]
        have := hK q
        omega
    · have hab : (aget S.pgt (a / S.pagsz)).present = false := by
        revert hpres; cases (aget S.pgt (a / S.pagsz)).present <;> simp
      have hplegal : a / S.pagsz < S.numpags := Nat.lt_of_not_le hill
      have h1 : (LRU.sim_mmu S a op).1 =
          LRU.reference_page (LRU.handle_page_fault S a) (a / S.pagsz) op := by
        rw [lru_mmu_absent_eq S a op hill hab]
      rw [h1]
      obtain ⟨hHpres, hHpagsz, hHnumpags, hHlen⟩ := lru_handle_present S a hF.1 hplegal
      have hHclock : (LRU.handle_page_fault S a).clock = S.clock := lru_handle_clock S a
      have hinner : ∃ k', FreeInv (LRU.handle_page_fault S a) k' ∧
          ConsInv (LRU.handle_page_fault S a) k' ∧ ClockInv (LRU.handle_page_fault S a) := by
        by_cases hfree : S.listfree = -1
        · have hkn : k = S.numframes := hF.2.2.2.2.1.mp hfree
          subst hkn
          obtain ⟨_, hF', hC', hK', _, _⟩ := lru_evict_preserves S a hF hC hK hclk hplegal hab
          exact ⟨S.numframes, hF', hC', hK'⟩
        · have hkn : k < S.numframes := by
            have h4 := hF.2.2.2.1
            have hne : k ≠ S.numframes := fun hh => hfree (hF.2.2.2.2.1.mpr hh)
            omega
          obtain ⟨hF', hC', hK'⟩ := lru_free_preserves S a k hF hkn hplegal
          exact ⟨k + 1, hF', hC' hab hC, hK' hK⟩
      obtain ⟨k', hF', hC', hK'⟩ := hinner
      obtain ⟨f1, f2, f3, _, _, f6, f7, f8, f9, fq⟩ :=
        lru_reference_fields (LRU.handle_page_fault S a) (a / S.pagsz) op
      have hplen' : a / S.pagsz < (LRU.handle_page_fault S a).pgt.length := by
        rw [hHlen]
        have := hF.1
        omega
      have hclock2 : (LRU.reference_page (LRU.handle_page_fault S a) (a / S.pagsz) op).clock = S.clock + 1 := by
        rw [lru_reference_clock_eq, hHclock, hmodeq]
      refine ⟨⟨k', freeInv_transfer _ _ k' f6 (fun f => by rw [f7]) (by rw [f7]) f2 f3 f8 hF',
        consInv_transfer _ _ k' f2 fq (fun f => by rw [f7]) hC', ?_⟩, by rw [hclock2]⟩
      intro q
      rw [hclock2]
      by_cases hqp : q = a / S.pagsz
      · subst hqp
        rw [lru_reference_ts (LRU.handle_page_fault S a) (a / S.pagsz) op hplen', hHclock]
        omega
      · rw [lru_reference_ts_other (LRU.handle_page_fault S a) (a / S.pagsz) op q hqp]
        have := hK' q
        rw [hHclock] at this
        omega

theorem invL_run : ∀ (t : List (Nat × Char)) (S : ssystem), InvL S →
    S.clock + t.length ≤ 4294967295 →
    InvL (LRU.run S t) ∧ (LRU.run S t).clock ≤ S.clock + t.length := by
  intro t
  induction t with
  | nil =>
    intro S h _
    exact ⟨h, Nat.le_refl _⟩
  | cons e rest ih =>
    intro S h hbound
    rw [List.length_cons] at hbound
    have hclk : S.clock < 4294967295 := by omega
    obtain ⟨h1, h2⟩ := invL_step S e.1 e.2 h hclk
    obtain ⟨h3, h4⟩ := ih ((LRU.sim_mmu S e.1 e.2).1) h1 (by omega)
    refine ⟨h3, ?_⟩
    rw [List.length_cons]
    show (LRU.run (LRU.sim_mmu S e.1 e.2).1 rest).clock ≤ S.clock + (rest.length + 1)
    omega

theorem invL_start (ps np nf : Nat) (hn : 1 ≤ nf) : InvL (start ps np nf) :=
  ⟨0, freeInv_start ps np nf hn, consInv_start ps np nf, clockInv_start ps np nf⟩

theorem chaseFree_chain (S : ssystem) (k : Nat)
    (hchain : ∀ i : Nat, k ≤ i → i + 1 < S.numframes → (aget S.frt i).next = (i : Int) + 1) :
    ∀ (fuel j : Nat), k ≤ j → j < S.numframes → S.numframes - 1 - j ≤ fuel →
    chaseFree S ((S.numframes : Int) - 1) fuel (j : Int) =
      (List.range' j (S.numframes - 1 - j)).map (fun (x : Nat) => (x : Int)) := by
  intro fuel
  induction fuel with
  | zero =>
    intro j hkj hjn hfuel
    have hj : j = S.numframes - 1 := by omega
    subst hj
    rw [show S.numframes - 1 - (S.numframes - 1) = 0 by omega]
    rfl
  | succ m ih =>
    intro j hkj hjn hfuel
    by_cases hlast : j = S.numframes - 1
    · subst hlast
      show (if ((S.numframes - 1 : Nat) : Int) = (S.numframes : Int) - 1 then [] else _) = _
      rw [if_pos (by omega), show S.numframes - 1 - (S.numframes - 1) = 0 by omega]
      rfl
    · show (if ((j : Nat) : Int) = (S.numframes : Int) - 1 then [] else
        ((j : Nat) : Int) :: chaseFree S ((S.numframes : Int) - 1) m (aget S.frt ((j : Nat) : Int).toNat).next) = _
      rw [if_neg (by omega)]
      simp only [Int.toNat_natCast]
      rw [hchain j hkj (by omega)]
      rw [show ((j : Nat) : Int) + 1 = ((j + 1 : Nat) : Int) by omega]
      rw [ih (j + 1) (by omega) (by omega) (by omega)]
      rw [show S.numframes - 1 - j = (S.numframes - 1 - (j + 1)) + 1 by omega]
      rw [List.range'_succ]
      rfl

theorem freeListFrames_spec (S : ssystem) (k : Nat) (hF : FreeInv S k) :
    (freeListFrames S).length = S.numframes - k ∧
    ∀ f : Nat, f < S.numframes → (((f : Nat) : Int) ∈ freeListFrames S ↔ k ≤ f) := by
  obtain ⟨hpl, hfl, hn1, hkn, hiff, hchain, hfreepg, hoccpg⟩ := hF
  by_cases hfree : S.listfree = -1
  · have hk : k = S.numframes := hiff.mp hfree
    subst hk
    rw [freeListFrames, if_pos hfree]
    refine ⟨by simp, ?_⟩
    intro f hf
    simp only [List.not_mem_nil]
    constructor
    · intro hcontra; cases hcontra
    · intro hle; omega
  · have hk : k < S.numframes := by
      have hne : k ≠ S.numframes := fun hh => hfree (hiff.mpr hh)
      omega
    obtain ⟨hlf, hnext, hchain2⟩ := hchain hk
    have htn : S.listfree.toNat = S.numframes - 1 := by rw [hlf]; omega
    have hform : freeListFrames S = S.listfree ::
        (List.range' k (S.numframes - 1 - k)).map (fun (x : Nat) => (x : Int)) := by
      rw [freeListFrames, if_neg hfree]
      rw [htn, hnext]
      rw [show (k : Int) = ((k : Nat) : Int) from rfl]
      rw [show S.listfree = (S.numframes : Int) - 1 from hlf]
      rw [chaseFree_chain S k hchain2 S.numframes k (le_refl k) hk (by omega)]
    rw [hform]
    constructor
    · simp
      omega
    · intro f hf
      rw [List.mem_cons, List.mem_map]
      constructor
      · intro hmem
        rcases hmem with h1 | ⟨x, hx1, hx2⟩
        · rw [hlf] at h1
          omega
        · have hx := List.mem_range'_1.mp hx1
          have hx2i : (x : Int) = (f : Int) := hx2
          omega
      · intro hle
        by_cases hftop : f = S.numframes - 1
        · left
          rw [hlf]
          omega
        · right
          exact ⟨f, List.mem_range'_1.mpr ⟨hle, by omega⟩, rfl⟩

theorem filter_range_length (p : Nat → Bool) :
    ∀ (n k : Nat), k ≤ n → (∀ f, f < k → p f = true) → (∀ f, k ≤ f → f < n → p f = false) →
    ((List.range n).filter p).length = k := by
  intro n
  induction n with
  | zero =>
    intro k hk _ _
    have : k = 0 := by omega
    subst this
    rfl
  | succ m ih =>
    intro k hk h1 h2
    rw [List.range_succ, List.filter_append]
    by_cases hkm : k ≤ m
    · have hpm : p m = false := h2 m hkm (by omega)
      rw [List.length_append]
      rw [ih k hkm h1 (fun f hf1 hf2 => h2 f hf1 (by omega))]
      simp [List.filter, hpm]
    · have hk1 : k = m + 1 := by omega
      have hpm : p m = true := h1 m (by omega)
      rw [List.length_append]
      rw [ih m (le_refl m) (fun f hf => h1 f (by omega))
        (fun f hf1 hf2 => absurd (lt_of_le_of_lt hf1 hf2) (lt_irrefl m))]
      simp [List.filter, hpm]
      omega

theorem countOccupied_spec (S : ssystem) (k : Nat) (hF : FreeInv S k) :
    countOccupied S = k := by
  obtain ⟨hpl, hfl, hn1, hkn, hiff, hchain, hfreepg, hoccpg⟩ := hF
  refine filter_range_length _ S.numframes k hkn ?_ ?_
  · intro f hf
    simp only [decide_eq_true_eq]
    exact hoccpg f hf
  · intro f hf1 hf2
    simp only [decide_eq_false_iff_not, not_not]
    exact hfreepg f hf1 hf2

theorem framePartition_of_freeInv (S : ssystem) (k : Nat) (hF : FreeInv S k) :
    framePartition S := by
  obtain ⟨hlen, hmem⟩ := freeListFrames_spec S k hF
  have hcount := countOccupied_spec S k hF
  have hkn := hF.2.2.2.1
  constructor
  · rw [hlen, hcount]
    omega
  · intro f hf
    rw [hmem f hf]
    constructor
    · intro hle
      exact hF.2.2.2.2.2.2.1 f hle hf
    · intro hpage
      by_cases hfk : f < k
      · exact absurd hpage (hF.2.2.2.2.2.2.2 f hfk)
      · omega

/-- Claim C7 (confirmed): in every state reachable from an initialized
system by a sequence of translations, in either variant, each frame is on
the free list exactly when it holds no page, and the number of free-list
frames plus the number of occupied frames equals the configured frame
count. -/
theorem frame_partition_reachable (pagsz numpags numframes : Nat)
    (t : List (Nat × Char)) (hn : 1 ≤ numframes) :
    framePartition (FIFO.run (start pagsz numpags numframes) t) ∧
    framePartition (LRU.run (start pagsz numpags numframes) t) := by
  constructor
  · obtain ⟨k, hF, _, _⟩ := invF_run (start pagsz numpags numframes) t
      (invF_start pagsz numpags numframes hn)
    exact framePartition_of_freeInv _ k hF
  · obtain ⟨k, hF⟩ := jl_run (start pagsz numpags numframes) t
      (jl_start pagsz numpags numframes hn)
    exact framePartition_of_freeInv _ k hF

/-- Witness for C7 at a concrete configuration and trace. -/
theorem frame_partition_reachable_witness :
    1 ≤ 2 ∧
    (framePartition (FIFO.run (start 1 3 2) [(0, 'R')]) ∧
     framePartition (LRU.run (start 1 3 2) [(0, 'R')])) :=
  ⟨by decide, frame_partition_reachable 1 3 2 [(0, 'R')] (by decide)⟩

theorem lruLoopState_step (m : Nat) :
    (LRU.sim_mmu (lruLoopState m) 0 'R').1 = lruLoopState (m + 1) := by
  have h0 : 0 / (lruLoopState m).pagsz = 0 := by simp [lruLoopState]
  have hnp : ¬ (lruLoopState m).numpags ≤ 0 / (lruLoopState m).pagsz := by
    rw [h0]
    simp [lruLoopState]
  have hpres : (aget (lruLoopState m).pgt (0 / (lruLoopState m).pagsz)).present = true := by
    rw [h0]
    simp [lruLoopState, aget]
  have h := lru_mmu_present_eq (lruLoopState m) 0 'R' hnp hpres
  have h1 : (LRU.sim_mmu (lruLoopState m) 0 'R').1 =
      LRU.reference_page (lruLoopState m) (0 / (lruLoopState m).pagsz) 'R' := by rw [h]
  rw [h1, h0]
  simp [LRU.reference_page, lruLoopState, aget, ssystem.mk.injEq, spage.mk.injEq]
  all_goals omega

theorem lru_run_replicate : ∀ m : Nat,
    LRU.run (start 1 2 1) (List.replicate (m + 1) ((0 : Nat), 'R')) = lruLoopState m := by
  intro m
  induction m with
  | zero => decide
  | succ m ih =>
    have hsplit : List.replicate (m + 1 + 1) ((0 : Nat), 'R') =
        List.replicate (m + 1) ((0 : Nat), 'R') ++ [((0 : Nat), 'R')] :=
      List.replicate_succ' (m + 1) ((0 : Nat), 'R')
    rw [hsplit]
    have happ : LRU.run (start 1 2 1)
        (List.replicate (m + 1) ((0 : Nat), 'R') ++ [((0 : Nat), 'R')]) =
        LRU.run (LRU.run (start 1 2 1) (List.replicate (m + 1) ((0 : Nat), 'R')))
          [((0 : Nat), 'R')] := by
      show List.foldl (fun A e => (LRU.sim_mmu A e.1 e.2).1) (start 1 2 1)
          (List.replicate (m + 1) ((0 : Nat), 'R') ++ [((0 : Nat), 'R')]) = _
      rw [List.foldl_append]
      rfl
    rw [happ, ih]
    show (LRU.sim_mmu (lruLoopState m) 0 'R').1 = lruLoopState (m + 1)
    exact lruLoopState_step m

theorem fifo_fault_resolves (S : ssystem) (a : Nat) (h : InvF S)
    (hp : a / S.pagsz < S.numpags)
    (habs : (aget S.pgt (a / S.pagsz)).present = false) :
    (aget (FIFO.handle_page_fault S a).pgt (a / S.pagsz)).present = true ∧
    ∃ f : Nat, f < S.numframes ∧
      (aget (FIFO.handle_page_fault S a).pgt (a / S.pagsz)).frame = (f : Int) ∧
      (aget (FIFO.handle_page_fault S a).frt f).page = ((a / S.pagsz : Nat) : Int) := by
  obtain ⟨k, hF, hC, hO⟩ := h
  have hkn := hF.2.2.2.1
  by_cases hk : k < S.numframes
  · obtain ⟨s1, s2, s3, srest⟩ := fifo_handle_free_spec S a k hF hO hk hp
    refine ⟨by rw [s1], k, hk, by rw [s1], s3⟩
  · have hke : k = S.numframes := by omega
    subst hke
    obtain ⟨_, _, _, _, h5, h6⟩ := fifo_evict_preserves S a hF hC hO hp habs
    exact ⟨h5, h6⟩

theorem lru_fault_resolves (S : ssystem) (a : Nat) (h : InvL S)
    (hclk : S.clock < 4294967295)
    (hp : a / S.pagsz < S.numpags)
    (habs : (aget S.pgt (a / S.pagsz)).present = false) :
    (aget (LRU.handle_page_fault S a).pgt (a / S.pagsz)).present = true ∧
    ∃ f : Nat, f < S.numframes ∧
      (aget (LRU.handle_page_fault S a).pgt (a / S.pagsz)).frame = (f : Int) ∧
      (aget (LRU.handle_page_fault S a).frt f).page = ((a / S.pagsz : Nat) : Int) := by
  obtain ⟨k, hF, hC, hK⟩ := h
  have hkn := hF.2.2.2.1
  by_cases hk : k < S.numframes
  · obtain ⟨s1, s2, s3, srest⟩ := lru_handle_free_spec S a k hF hk hp
    refine ⟨by rw [s1], k, hk, by rw [s1], s3⟩
  · have hke : k = S.numframes := by omega
    subst hke
    obtain ⟨_, _, _, _, h5, h6⟩ := lru_evict_preserves S a hF hC hK hclk hp habs
    exact ⟨h5, h6⟩

/-- Counterexample to claim C2: after 2^32 reads of page 0 in the LRU
variant with one frame and two pages, the system reaches a state where the
free list is empty, page 1 is legal and absent, yet victim selection
returns -1 — the eviction branch fails to find a candidate. -/
theorem fault_resolution_cex :
    (LRU.run (start 1 2 1) bigTrace).listfree = -1 ∧
    1 / (LRU.run (start 1 2 1) bigTrace).pagsz < (LRU.run (start 1 2 1) bigTrace).numpags ∧
    (aget (LRU.run (start 1 2 1) bigTrace).pgt
      (1 / (LRU.run (start 1 2 1) bigTrace).pagsz)).present = false ∧
    LRU.choose_page_to_be_replaced (LRU.run (start 1 2 1) bigTrace) = -1 := by
  have hb : bigTrace = List.replicate (4294967295 + 1) ((0 : Nat), 'R') := rfl
  have hr : LRU.run (start 1 2 1) bigTrace = lruLoopState 4294967295 := by
    rw [hb]
    exact lru_run_replicate 4294967295
  rw [hr]
  decide

/-- Claim C2 (corrected): from an initialized system with a positive frame
count, after any sequence of translations, a fault on a legal absent page
is fully resolved — the page ends up present in a frame whose frame-table
entry points back at it — in the FIFO variant unconditionally, and in the
LRU variant provided the trace is shorter than 2^32 - 1 references (so the
clock has not reached the ~0U sentinel); without that bound the LRU
eviction branch can fail to find a victim. -/
theorem fault_resolution_amended (ps np nf : Nat) (t : List (Nat × Char)) (a : Nat)
    (hn : 1 ≤ nf) :
    ((a / (FIFO.run (start ps np nf) t).pagsz < (FIFO.run (start ps np nf) t).numpags ∧
      (aget (FIFO.run (start ps np nf) t).pgt
        (a / (FIFO.run (start ps np nf) t).pagsz)).present = false) →
      ((aget (FIFO.handle_page_fault (FIFO.run (start ps np nf) t) a).pgt
          (a / (FIFO.run (start ps np nf) t).pagsz)).present = true ∧
        ∃ f : Nat, f < (FIFO.run (start ps np nf) t).numframes ∧
          (aget (FIFO.handle_page_fault (FIFO.run (start ps np nf) t) a).pgt
            (a / (FIFO.run (start ps np nf) t).pagsz)).frame = (f : Int) ∧
          (aget (FIFO.handle_page_fault (FIFO.run (start ps np nf) t) a).frt f).page =
            ((a / (FIFO.run (start ps np nf) t).pagsz : Nat) : Int))) ∧
    ((t.length < 4294967295 ∧
      a / (LRU.run (start ps np nf) t).pagsz < (LRU.run (start ps np nf) t).numpags ∧
      (aget (LRU.run (start ps np nf) t).pgt
        (a / (LRU.run (start ps np nf) t).pagsz)).present = false) →
      ((aget (LRU.handle_page_fault (LRU.run (start ps np nf) t) a).pgt
          (a / (LRU.run (start ps np nf) t).pagsz)).present = true ∧
        ∃ f : Nat, f < (LRU.run (start ps np nf) t).numframes ∧
          (aget (LRU.handle_page_fault (LRU.run (start ps np nf) t) a).pgt
            (a / (LRU.run (start ps np nf) t).pagsz)).frame = (f : Int) ∧
          (aget (LRU.handle_page_fault (LRU.run (start ps np nf) t) a).frt f).page =
            ((a / (LRU.run (start ps np nf) t).pagsz : Nat) : Int))) := by
  constructor
  · rintro ⟨hpF, habsF⟩
    exact fifo_fault_resolves (FIFO.run (start ps np nf) t) a
      (invF_run (start ps np nf) t (invF_start ps np nf hn)) hpF habsF
  · rintro ⟨hlen, hpL, habsL⟩
    have hstart0 : (start ps np nf).clock = 0 := rfl
    obtain ⟨hInv, hclk⟩ := invL_run t (start ps np nf) (invL_start ps np nf hn)
      (by rw [hstart0]; omega)
    refine lru_fault_resolves (LRU.run (start ps np nf) t) a hInv ?_ hpL habsL
    rw [hstart0] at hclk
    omega

/-- Witness for the corrected C2 at a concrete configuration: one frame,
two pages, empty trace, a fault on address 0; both sides' side conditions
are discharged concretely. -/
theorem fault_resolution_amended_witness :
    1 ≤ 1 ∧
    (((aget (FIFO.handle_page_fault (FIFO.run (start 1 2 1) []) 0).pgt
        (0 / (FIFO.run (start 1 2 1) []).pagsz)).present = true ∧
      ∃ f : Nat, f < (FIFO.run (start 1 2 1) []).numframes ∧
        (aget (FIFO.handle_page_fault (FIFO.run (start 1 2 1) []) 0).pgt
          (0 / (FIFO.run (start 1 2 1) []).pagsz)).frame = (f : Int) ∧
        (aget (FIFO.handle_page_fault (FIFO.run (start 1 2 1) []) 0).frt f).page =
          ((0 / (FIFO.run (start 1 2 1) []).pagsz : Nat) : Int)) ∧
     ((aget (LRU.handle_page_fault (LRU.run (start 1 2 1) []) 0).pgt
        (0 / (LRU.run (start 1 2 1) []).pagsz)).present = true ∧
      ∃ f : Nat, f < (LRU.run (start 1 2 1) []).numframes ∧
        (aget (LRU.handle_page_fault (LRU.run (start 1 2 1) []) 0).pgt
          (0 / (LRU.run (start 1 2 1) []).pagsz)).frame = (f : Int) ∧
        (aget (LRU.handle_page_fault (LRU.run (start 1 2 1) []) 0).frt f).page =
          ((0 / (LRU.run (start 1 2 1) []).pagsz : Nat) : Int))) :=
  ⟨by decide,
   (fault_resolution_amended 1 2 1 [] 0 (by decide)).1 ⟨by decide, by decide⟩,
   (fault_resolution_amended 1 2 1 [] 0 (by decide)).2 ⟨by decide, by decide, by decide⟩⟩
